import Mathlib

/-!
Verification development for the reactivity core of this repository
(`packages/reactivity/src/reactive.ts` together with its base proxy
handlers).  The TypeScript code is shallowly embedded: JavaScript values
become an inductive `Val` over an explicit heap of entities, the four
variant registries (`reactiveMap`, `shallowReactiveMap`, `readonlyMap`,
`shallowReadonlyMap`) become association lists inside a state `St`, and
the external dependency-tracking subsystem (`track` / `trigger` /
`pauseTracking` / `resetTracking`, which lives outside this module) is
modelled from its specified interface as append-only logs plus a
suppression stack.

Modelling notes, stated once here:
* Machine numbers are `Int` plus an explicit `NaN` constructor; negative
  zero and float precision are not modelled (no claim depends on them).
* Reads of the reserved flag keys on a proxy (`__v_raw`,
  `__v_isReactive`, ...) are modelled by the getter's short-circuit
  value.  The factory registers every proxy it creates in the matching
  registry before returning it, so the getter's `receiver === map.get(target)`
  guard holds for every proxy the API can produce; the full getter
  below (`baseGet`) models the guard faithfully.
* The boxed-reference abstraction (`ref`) is external to this module;
  its inner slot is modelled as a single mutable cell (`Entity.refCell`)
  whose `.value` reads and writes are direct slot accesses.
* Arrays are modelled hole-free (a deleted index becomes `undefined`),
  and non-index string properties on arrays are not modelled; the
  module's own code never creates either shape.
* Prototype chains are not modelled: `Reflect.get` on an absent own key
  yields `undefined`.
-/

namespace VueReactivity

/-- The eight array method names the mutable handler instruments. -/
inductive InstrMethod where
  | includes | indexOf | lastIndexOf | push | pop | shift | unshift | splice
deriving DecidableEq, Repr

/-- JavaScript numbers: an integer or NaN (floats and negative zero are
not modelled). -/
inductive JSNum where
  | fin (i : Int)
  | nan
deriving DecidableEq, Repr

/-- Property keys: strings or symbols (a symbol carries a well-known flag
mirroring membership in `builtInSymbols`). -/
inductive JSKey where
  | str (s : String)
  | sym (wellKnown : Bool) (id : Nat)
deriving DecidableEq, Repr

/-- JavaScript runtime values.  `addr` points into the heap; `instrFn m`
is the instrumented array method returned by the mutable array getter. -/
inductive Val where
  | undef
  | null
  | bool (b : Bool)
  | num (n : JSNum)
  | str (s : String)
  | sym (wellKnown : Bool) (id : Nat)
  | addr (a : Nat)
  | instrFn (m : InstrMethod)
deriving DecidableEq, Repr

/-- The `toRawType` classification tags (result of
`Object.prototype.toString` slicing). -/
inductive ObjKind where
  | plain | mapK | setK | weakMapK | weakSetK | fn | date | other
deriving DecidableEq, Repr

/-- Heap entities: ordinary objects (with a kind tag), arrays, boxed
reference cells, and proxies.  `skip` is the `__v_skip` marker installed
by `markRaw` (a non-configurable own property). -/
inductive Entity where
  | obj (kind : ObjKind) (fields : List (JSKey × Val)) (extensible : Bool) (skip : Bool)
  | arr (elems : List Val) (extensible : Bool) (skip : Bool)
  | refCell (inner : Val)
  | proxyE (target : Nat) (ro : Bool) (sh : Bool) (coll : Bool)
deriving DecidableEq, Repr

/-- `TrackOpTypes`. -/
inductive TrackOp where
  | get | has | iterate
deriving DecidableEq, Repr

/-- `TriggerOpTypes`. -/
inductive TriggerOp where
  | add | set | del | clear
deriving DecidableEq, Repr

/-- One `trigger(target, type, key, newValue?, oldValue?)` notification. -/
structure TrigEvent where
  target : Nat
  op : TriggerOp
  key : JSKey
  newVal : Val
  oldVal : Option Val
deriving DecidableEq, Repr

/-- Global state: the heap, the four variant registries, the logs of the
external tracking subsystem (`trackCalls` records every call to `track`;
`deps` records the edges it actually registers), the trigger log, the
warning count, and the tracking-suppression stack
(`shouldTrack`/`trackStack`, managed by `pauseTracking`/`resetTracking`).
`activeReader` says whether a reader context is active (an external
condition for `track` to record an edge). -/
structure St where
  heap : List Entity
  reactiveM : List (Nat × Nat)
  shallowReactiveM : List (Nat × Nat)
  readonlyM : List (Nat × Nat)
  shallowReadonlyM : List (Nat × Nat)
  trackCalls : List (Nat × TrackOp × JSKey)
  deps : List (Nat × TrackOp × JSKey)
  triggerLog : List TrigEvent
  warnCount : Nat
  shouldTrack : Bool
  trackStack : List Bool
  activeReader : Bool
deriving DecidableEq, Repr

/-- Heap lookup. -/
def heapAt (st : St) (a : Nat) : Option Entity := st.heap[a]?

/-- Append a fresh entity to the heap (its address is the old length). -/
def addHeap (st : St) (e : Entity) : St := { st with heap := st.heap ++ [e] }

/-- Association-list lookup used for the weak-map registries. -/
def alookup (l : List (Nat × Nat)) (k : Nat) : Option Nat :=
  (l.find? (fun p => p.1 == k)).map (·.2)

/-- Registry selection by variant, mirroring the map chosen in the
getter (`isReadonly ? (shallow ? shallowReadonlyMap : readonlyMap) : ...`)
and the map each factory passes to `createReactiveObject`. -/
def mapGet (st : St) (ro sh : Bool) (a : Nat) : Option Nat :=
  match ro, sh with
  | true, true => alookup st.shallowReadonlyM a
  | true, false => alookup st.readonlyM a
  | false, true => alookup st.shallowReactiveM a
  | false, false => alookup st.reactiveM a

/-- `proxyMap.set(target, proxy)`. -/
def mapInsert (st : St) (ro sh : Bool) (a p : Nat) : St :=
  match ro, sh with
  | true, true => { st with shallowReadonlyM := (a, p) :: st.shallowReadonlyM }
  | true, false => { st with readonlyM := (a, p) :: st.readonlyM }
  | false, true => { st with shallowReactiveM := (a, p) :: st.shallowReactiveM }
  | false, false => { st with reactiveM := (a, p) :: st.reactiveM }

/-- Field lookup in an object's own-property list. -/
def flookup (fields : List (JSKey × Val)) (k : JSKey) : Option Val :=
  (fields.find? (fun p => p.1 == k)).map (·.2)

/-- Replace (or add) an own property. -/
def fstore (fields : List (JSKey × Val)) (k : JSKey) (v : Val) : List (JSKey × Val) :=
  match fields with
  | [] => [(k, v)]
  | (k', v') :: rest => if k' == k then (k, v) :: rest else (k', v') :: fstore rest k v

/-- Remove an own property. -/
def fremove (fields : List (JSKey × Val)) (k : JSKey) : List (JSKey × Val) :=
  fields.filter (fun p => p.1 != k)

/-- JavaScript truthiness. -/
def truthy : Val → Bool
  | .undef => false
  | .null => false
  | .bool b => b
  | .num (.fin i) => i != 0
  | .num .nan => false
  | .str s => s != ""
  | .sym _ _ => true
  | .addr _ => true
  | .instrFn _ => true

/-- The reserved flag keys (`ReactiveFlags`). -/
def skipKey : JSKey := .str "__v_skip"
def isReactiveKey : JSKey := .str "__v_isReactive"
def isReadonlyKey : JSKey := .str "__v_isReadonly"
def isShallowKey : JSKey := .str "__v_isShallow"
def rawKey : JSKey := .str "__v_raw"
def isRefKey : JSKey := .str "__v_isRef"
def lengthKey : JSKey := .str "length"

/-- `isIntegerKey` from `@vue/shared`: a string key that is the canonical
decimal form of a non-negative integer. -/
def isCanonicalIndex (s : String) : Bool :=
  match s.toList with
  | [] => false
  | c :: cs => (c.isDigit && cs.all (·.isDigit)) && (c != '0' || cs.isEmpty)

def isIntegerKey : JSKey → Bool
  | .str s => isCanonicalIndex s
  | .sym _ _ => false

def keyToNat : JSKey → Nat
  | .str s => (s.toNat?).getD 0
  | .sym _ _ => 0

/-- `isNonTrackableKeys`: the fixed set `__proto__`, `__v_isRef`, `__isVue`. -/
def isNonTrackableKey : JSKey → Bool
  | .str s => s == "__proto__" || s == "__v_isRef" || s == "__isVue"
  | .sym _ _ => false

/-- `builtInSymbols.has(key)` for a symbolic key. -/
def isBuiltInSymbolKey : JSKey → Bool
  | .str _ => false
  | .sym wk _ => wk

/-- Untrapped own-property read (`Reflect.get` on a raw entity; absent
keys yield `undefined`).  The `__v_skip` marker defined by `markRaw` and
the public `__v_isRef` of a reference cell read as `true`. -/
def rawGet (st : St) (a : Nat) (key : JSKey) : Val :=
  match heapAt st a with
  | some (.obj _ fields _ skip) =>
      if key == skipKey && skip then .bool true
      else (flookup fields key).getD .undef
  | some (.arr elems _ skip) =>
      if key == skipKey && skip then .bool true
      else if key == lengthKey then .num (.fin elems.length)
      else if isIntegerKey key then (elems[keyToNat key]?).getD .undef
      else .undef
  | some (.refCell inner) =>
      if key == isRefKey then .bool true
      else if key == .str "value" then inner
      else .undef
  | _ => Val.undef

/-- Untrapped own-property write (`Reflect.set` on a raw entity).
Returns the JavaScript success flag: adding a key to a non-extensible
entity fails.  Writing `length` on an array resizes it (extension pads
with `undefined`). -/
def rawSet (st : St) (a : Nat) (key : JSKey) (v : Val) : Bool × St :=
  match heapAt st a with
  | some (.obj kind fields ext skip) =>
      match flookup fields key with
      | some _ => (true, { st with heap := st.heap.set a (.obj kind (fstore fields key v) ext skip) })
      | none =>
          if ext then (true, { st with heap := st.heap.set a (.obj kind (fstore fields key v) ext skip) })
          else (false, st)
  | some (.arr elems ext skip) =>
      if key == lengthKey then
        match v with
        | .num (.fin n) =>
            if n < 0 then (false, st)
            else
              let m := n.toNat
              let elems' := if m ≤ elems.length then elems.take m
                            else elems ++ List.replicate (m - elems.length) .undef
              (true, { st with heap := st.heap.set a (.arr elems' ext skip) })
        | _ => (false, st)
      else if isIntegerKey key then
        let i := keyToNat key
        if i < elems.length then
          (true, { st with heap := st.heap.set a (.arr (elems.set i v) ext skip) })
        else if ext then
          (true, { st with heap := st.heap.set a (.arr (elems ++ List.replicate (i - elems.length) .undef ++ [v]) ext skip) })
        else (false, st)
      else (false, st)
  | some (.refCell _) =>
      if key == .str "value" then
        (true, { st with heap := st.heap.set a (.refCell v) })
      else (true, st)
  | _ => (false, st)

/-- Untrapped own-property delete (`Reflect.deleteProperty`).  Deleting
the `__v_skip` marker fails (it is defined non-configurable), as does
deleting an array's `length`; deleting an array index leaves
`undefined` (holes are not modelled). -/
def rawDelete (st : St) (a : Nat) (key : JSKey) : Bool × St :=
  match heapAt st a with
  | some (.obj kind fields ext skip) =>
      if key == skipKey && skip then (false, st)
      else (true, { st with heap := st.heap.set a (.obj kind (fremove fields key) ext skip) })
  | some (.arr elems ext skip) =>
      if key == skipKey && skip then (false, st)
      else if key == lengthKey then (false, st)
      else if isIntegerKey key && keyToNat key < elems.length then
        (true, { st with heap := st.heap.set a (.arr (elems.set (keyToNat key) .undef) ext skip) })
      else (true, st)
  | some (.refCell _) => (true, st)
  | _ => (false, st)

/-- `hasOwn(target, key)`. -/
def hasOwnE (st : St) (a : Nat) (key : JSKey) : Bool :=
  match heapAt st a with
  | some (.obj _ fields _ skip) => (key == skipKey && skip) || (flookup fields key).isSome
  | some (.arr elems _ skip) =>
      (key == skipKey && skip) || key == lengthKey ||
      (isIntegerKey key && keyToNat key < elems.length)
  | some (.refCell _) => key == isRefKey
  | _ => false

/-- `isArray(target)` for a raw heap address. -/
def isArrayE (st : St) (a : Nat) : Bool :=
  match heapAt st a with
  | some (.arr ..) => true
  | _ => false

def arrLen (st : St) (a : Nat) : Nat :=
  match heapAt st a with
  | some (.arr elems ..) => elems.length
  | _ => 0

def arrElemsOf (st : St) (a : Nat) : List Val :=
  match heapAt st a with
  | some (.arr elems ..) => elems
  | _ => []

/-- `isObject` from `@vue/shared`: non-null values of runtime type
`object` (functions are excluded). -/
def isObjectV (st : St) (v : Val) : Bool :=
  match v with
  | .addr a =>
      match heapAt st a with
      | some (.obj .fn ..) => false
      | some _ => true
      | none => false
  | _ => false

/-- Result classes of `toRawType`. -/
inductive RawType where
  | object | array | mapT | setT | weakMapT | weakSetT | functionT | dateT | otherT
deriving DecidableEq, Repr

def objKindRawType : ObjKind → RawType
  | .plain => .object
  | .mapK => .mapT
  | .setK => .setT
  | .weakMapK => .weakMapT
  | .weakSetK => .weakSetT
  | .fn => .functionT
  | .date => .dateT
  | .other => .otherT

/-- `toRawType(value)`.  A proxy is transparent for the tag (the
`Symbol.toStringTag` read short-circuits in the getter without
tracking), so it reports its target's kind. -/
def rawTypeOf (st : St) (v : Val) : RawType :=
  match v with
  | .addr a =>
      match heapAt st a with
      | some (.obj k ..) => objKindRawType k
      | some (.arr ..) => .array
      | some (.refCell _) => .object
      | some (.proxyE t _ _ _) =>
          match heapAt st t with
          | some (.obj k ..) => objKindRawType k
          | some (.arr ..) => .array
          | some (.refCell _) => .object
          | _ => .object
      | none => .otherT
  | _ => .otherT

/-- `TargetType`. -/
inductive TargetType where
  | invalid | common | collection
deriving DecidableEq, Repr

/-- `targetTypeMap(rawType)`. -/
def targetTypeMap : RawType → TargetType
  | .object => .common
  | .array => .common
  | .mapT => .collection
  | .setT => .collection
  | .weakMapT => .collection
  | .weakSetT => .collection
  | _ => .invalid

/-- The `value[ReactiveFlags.SKIP]` read performed by `getTargetType`
(on a proxy it reads through to the raw target). -/
def skipOf (st : St) (v : Val) : Bool :=
  match v with
  | .addr a =>
      match heapAt st a with
      | some (.obj ..) => truthy (rawGet st a skipKey)
      | some (.arr ..) => truthy (rawGet st a skipKey)
      | some (.refCell _) => false
      | some (.proxyE t _ _ _) => truthy (rawGet st t skipKey)
      | none => false
  | _ => false

/-- `Object.isExtensible(value)` (forwards through proxies). -/
def extensibleOf (st : St) (v : Val) : Bool :=
  match v with
  | .addr a =>
      match heapAt st a with
      | some (.obj _ _ ext _) => ext
      | some (.arr _ ext _) => ext
      | some (.refCell _) => true
      | some (.proxyE t _ _ _) =>
          match heapAt st t with
          | some (.obj _ _ ext _) => ext
          | some (.arr _ ext _) => ext
          | _ => true
      | none => false
  | _ => false

/-- `getTargetType(value)`. -/
def getTargetTypeE (st : St) (v : Val) : TargetType :=
  if skipOf st v || !extensibleOf st v then .invalid
  else targetTypeMap (rawTypeOf st v)

/-- The value of `observed[ReactiveFlags.RAW]`.  On a proxy this is the
getter's short-circuit (the factory registers every proxy it creates, so
the `receiver === map.get(target)` guard holds); on a plain object it is
a literal field. -/
def rawFlagVal (st : St) (v : Val) : Val :=
  match v with
  | .addr a =>
      match heapAt st a with
      | some (.proxyE t _ _ _) => .addr t
      | some (.obj ..) => rawGet st a rawKey
      | _ => .undef
  | _ => Val.undef

/-- `toRaw(observed)`, with fuel (the raw-pointer chain of any value the
API can produce is shorter than the heap). -/
def toRawF : Nat → St → Val → Val
  | 0, _, v => v
  | n + 1, st, v =>
      let r := rawFlagVal st v
      if truthy r then toRawF n st r else v

def toRawV (st : St) (v : Val) : Val := toRawF (st.heap.length + 1) st v

/-- `isRef(r)`: reads `__v_isRef` (a non-trackable key, so it passes
through a proxy to its target without side effects). -/
def isRefV (st : St) (v : Val) : Bool :=
  match v with
  | .addr a =>
      match heapAt st a with
      | some (.refCell _) => true
      | some (.obj _ fields _ _) => truthy ((flookup fields isRefKey).getD .undef)
      | some (.proxyE t _ _ _) =>
          match heapAt st t with
          | some (.refCell _) => true
          | some (.obj _ fields _ _) => truthy ((flookup fields isRefKey).getD .undef)
          | _ => false
      | _ => false
  | _ => false

/-- `isReadonly(value)`: reads the `__v_isReadonly` flag (short-circuited
by the getter on a proxy). -/
def isReadonlyV (st : St) (v : Val) : Bool :=
  match v with
  | .addr a =>
      match heapAt st a with
      | some (.proxyE _ ro _ _) => ro
      | some (.obj _ fields _ _) => truthy ((flookup fields isReadonlyKey).getD .undef)
      | _ => false
  | _ => false

/-- `isShallow(value)`. -/
def isShallowV (st : St) (v : Val) : Bool :=
  match v with
  | .addr a =>
      match heapAt st a with
      | some (.proxyE _ _ sh _) => sh
      | some (.obj _ fields _ _) => truthy ((flookup fields isShallowKey).getD .undef)
      | _ => false
  | _ => false

/-- The `target[ReactiveFlags.IS_REACTIVE]` read in the factory. -/
def reactiveFlagV (st : St) (v : Val) : Bool :=
  match v with
  | .addr a =>
      match heapAt st a with
      | some (.proxyE _ ro _ _) => !ro
      | some (.obj _ fields _ _) => truthy ((flookup fields isReactiveKey).getD .undef)
      | _ => false
  | _ => false

/-- Modelled from the spec: `track(target, kind, key)` of the external
dependency-tracking subsystem records the call and, when tracking is not
suppressed and a reader context is active, registers a dependency edge. -/
def track (st : St) (a : Nat) (op : TrackOp) (key : JSKey) : St :=
  { st with
    trackCalls := st.trackCalls ++ [(a, op, key)]
    deps := if st.shouldTrack && st.activeReader then st.deps ++ [(a, op, key)] else st.deps }

/-- Modelled from the spec: `trigger` synchronously notifies dependents;
here it records the notification. -/
def trigger (st : St) (a : Nat) (op : TriggerOp) (key : JSKey) (nv : Val) (ov : Option Val) : St :=
  { st with triggerLog := st.triggerLog ++ [⟨a, op, key, nv, ov⟩] }

/-- Modelled from the spec: `pauseTracking()` pushes the current
suppression state and disables tracking. -/
def pauseTracking (st : St) : St :=
  { st with trackStack := st.shouldTrack :: st.trackStack, shouldTrack := false }

/-- Modelled from the spec: `resetTracking()` pops the suppression
stack, restoring the previous state (enabled when the stack is empty). -/
def resetTracking (st : St) : St :=
  match st.trackStack with
  | [] => { st with shouldTrack := true, trackStack := [] }
  | b :: rest => { st with shouldTrack := b, trackStack := rest }

/-- The non-fatal diagnostic warning channel. -/
def warnSt (st : St) : St := { st with warnCount := st.warnCount + 1 }

/-- `createReactiveObject(target, isReadonly, baseHandlers,
collectionHandlers, proxyMap)`. -/
def createReactiveObject (st : St) (target : Val) (isRo sh : Bool) : Val × St :=
  match target with
  | .addr a =>
      if !isObjectV st target then (target, warnSt st)
      else if truthy (rawFlagVal st target) && !(isRo && reactiveFlagV st target) then
        (target, st)
      else
        match mapGet st isRo sh a with
        | some p => (.addr p, st)
        | none =>
            let tt := getTargetTypeE st target
            if tt == .invalid then (target, st)
            else
              let p := st.heap.length
              (.addr p, mapInsert (addHeap st (.proxyE a isRo sh (tt == .collection))) isRo sh a p)
  | _ => (target, warnSt st)

/-- `reactive(target)`: returns a readonly proxy unchanged, otherwise
wraps mutably and deeply. -/
def reactiveF (st : St) (v : Val) : Val × St :=
  if isReadonlyV st v then (v, st) else createReactiveObject st v false false

/-- `shallowReactive(target)`. -/
def shallowReactiveF (st : St) (v : Val) : Val × St :=
  createReactiveObject st v false true

/-- `readonly(target)`. -/
def readonlyF (st : St) (v : Val) : Val × St :=
  createReactiveObject st v true false

/-- `shallowReadonly(target)`. -/
def shallowReadonlyF (st : St) (v : Val) : Val × St :=
  createReactiveObject st v true true

/-- The wrap factory at a given variant (readonly × shallow). -/
def wrapV (ro sh : Bool) (st : St) (v : Val) : Val × St :=
  match ro, sh with
  | false, false => reactiveF st v
  | false, true => shallowReactiveF st v
  | true, false => readonlyF st v
  | true, true => shallowReadonlyF st v

/-- `markRaw(value)`: defines the non-configurable `__v_skip` marker. -/
def markRawF (st : St) (v : Val) : St :=
  match v with
  | .addr a =>
      match heapAt st a with
      | some (.obj kind fields ext _) => { st with heap := st.heap.set a (.obj kind fields ext true) }
      | some (.arr elems ext _) => { st with heap := st.heap.set a (.arr elems ext true) }
      | _ => st
  | _ => st

/-- Key-to-instrumentation dispatch: `hasOwn(arrayInstrumentations, key)`
together with the method the getter hands back. -/
def instrOfKey : JSKey → Option InstrMethod
  | .str "includes" => some .includes
  | .str "indexOf" => some .indexOf
  | .str "lastIndexOf" => some .lastIndexOf
  | .str "push" => some .push
  | .str "pop" => some .pop
  | .str "shift" => some .shift
  | .str "unshift" => some .unshift
  | .str "splice" => some .splice
  | _ => none

/-- Reading `.value` of a boxed reference (the boxed-reference
abstraction is external; its accessor is modelled as a direct slot
read, also through a proxy wrapping the cell). -/
def refInnerRead (st : St) (v : Val) : Val :=
  match v with
  | .addr a =>
      match heapAt st a with
      | some (.refCell inner) => inner
      | some (.proxyE t _ _ _) =>
          match heapAt st t with
          | some (.refCell inner) => inner
          | _ => .undef
      | some (.obj _ fields _ _) => (flookup fields (.str "value")).getD .undef
      | _ => .undef
  | _ => Val.undef

/-- `isSymbol(key)`. -/
def isSymK : JSKey → Bool
  | .str _ => false
  | .sym _ _ => true

/-- The getter's skip test
`isSymbol(key) ? builtInSymbols.has(key) : isNonTrackableKeys(key)`. -/
def skipTracking (key : JSKey) : Bool :=
  if isSymK key then isBuiltInSymbolKey key else isNonTrackableKey key

/-- The `receiver === proxyMap.get(target)` guard of the getter's
`__v_raw` branch. -/
def receiverMatches (st : St) (ro sh : Bool) (a : Nat) (receiver : Val) : Bool :=
  match mapGet st ro sh a with
  | some rp => receiver == Val.addr rp
  | none => false

/-- `createGetter(isReadonly, shallow)` applied to
`(target, key, receiver)`: flag short-circuits, array instrumentation
dispatch, the underlying read, conditional tracking, shallow passthrough,
boxed-reference unwrapping and lazy recursive wrapping. -/
def baseGet (ro sh : Bool) (st : St) (target : Nat) (key : JSKey) (receiver : Val) : Val × St :=
  if key == isReactiveKey then (.bool !ro, st)
  else if key == isReadonlyKey then (.bool ro, st)
  else if key == isShallowKey then (.bool sh, st)
  else if key == rawKey && receiverMatches st ro sh target receiver then (.addr target, st)
  else
    let targetIsArray := isArrayE st target
    if !ro && targetIsArray && (instrOfKey key).isSome then
      (.instrFn ((instrOfKey key).getD .includes), st)
    else
      let res := rawGet st target key
      if skipTracking key then
        (res, st)
      else
        let st1 := if !ro then track st target .get key else st
        if sh then (res, st1)
        else if isRefV st1 res then
          if targetIsArray && isIntegerKey key then (res, st1) else (refInnerRead st1 res, st1)
        else if isObjectV st1 res then
          if ro then readonlyF st1 res else reactiveF st1 res
        else (res, st1)

/-- Writing `.value` of a boxed reference (`oldValue.value = value` in
the setter); modelled as a direct slot write on the underlying cell. -/
def refInnerWrite (st : St) (v : Val) (newVal : Val) : St :=
  match toRawV st v with
  | .addr a =>
      match heapAt st a with
      | some (.refCell _) => { st with heap := st.heap.set a (.refCell newVal) }
      | _ => st
  | _ => st

/-- `hasChanged(value, oldValue)` = `!Object.is(value, oldValue)`:
structural difference, with NaN equal to itself. -/
def hasChangedV (v o : Val) : Bool := v != o

/-- `createSetter(shallow)` applied to `(target, key, value, receiver)`. -/
def baseSet (sh : Bool) (st : St) (target : Nat) (key : JSKey) (value : Val) (receiver : Val) :
    Bool × St :=
  let oldValue0 := rawGet st target key
  if isReadonlyV st oldValue0 && isRefV st oldValue0 && !isRefV st value then (false, st)
  else
    let raws := !sh && !isShallowV st value && !isReadonlyV st value
    let oldValue := if raws then toRawV st oldValue0 else oldValue0
    let value' := if raws then toRawV st value else value
    if !sh && !isArrayE st target && isRefV st oldValue && !isRefV st value' then
      (true, refInnerWrite st oldValue value')
    else
      let hadKey := if isArrayE st target && isIntegerKey key
        then keyToNat key < arrLen st target
        else hasOwnE st target key
      let ws := rawSet st target key value'
      let st2 :=
        if toRawV ws.2 receiver == Val.addr target then
          if !hadKey then trigger ws.2 target .add key value' none
          else if hasChangedV value' oldValue then trigger ws.2 target .set key value' (some oldValue)
          else ws.2
        else ws.2
      (ws.1, st2)

/-- The mutable `deleteProperty` trap. -/
def deletePropertyT (st : St) (target : Nat) (key : JSKey) : Bool × St :=
  let hadKey := hasOwnE st target key
  let oldValue := rawGet st target key
  let ds := rawDelete st target key
  if ds.1 && hadKey then (ds.1, trigger ds.2 target .del key .undef (some oldValue))
  else ds

/-- The mutable `has` trap (presence checks are modelled own-key only;
the module never relies on inherited keys). -/
def hasT (st : St) (target : Nat) (key : JSKey) : Bool × St :=
  let result := hasOwnE st target key
  if !(isBuiltInSymbolKey key) then (result, track st target .has key)
  else (result, st)

/-- The iteration key of the external tracking subsystem (`ITERATE_KEY`,
a fresh symbol). -/
def iterateKey : JSKey := .sym false 1000000

/-- The mutable `ownKeys` trap (only its tracking effect is modelled). -/
def ownKeysT (st : St) (target : Nat) : St :=
  track st target .iterate (if isArrayE st target then lengthKey else iterateKey)

/-- `readonlyHandlers.set`: warn, refuse to mutate, report success. -/
def readonlySetT (st : St) (_target : Nat) (_key : JSKey) (_value : Val) : Bool × St :=
  (true, warnSt st)

/-- `readonlyHandlers.deleteProperty`: warn, refuse to mutate, report
success. -/
def readonlyDeleteT (st : St) (_target : Nat) (_key : JSKey) : Bool × St :=
  (true, warnSt st)

/-- A `get` observed on a wrapped instance: dispatch to the handler set
selected at construction. -/
def proxyGet (st : St) (p : Nat) (key : JSKey) : Val × St :=
  match heapAt st p with
  | some (.proxyE t ro sh _) => baseGet ro sh st t key (.addr p)
  | _ => (.undef, st)

/-- A `set` observed on a wrapped instance. -/
def proxySet (st : St) (p : Nat) (key : JSKey) (v : Val) : Bool × St :=
  match heapAt st p with
  | some (.proxyE t ro sh _) =>
      if ro then readonlySetT st t key v else baseSet sh st t key v (.addr p)
  | _ => (false, st)

/-- A `deleteProperty` observed on a wrapped instance. -/
def proxyDelete (st : St) (p : Nat) (key : JSKey) : Bool × St :=
  match heapAt st p with
  | some (.proxyE t ro _ _) =>
      if ro then readonlyDeleteT st t key else deletePropertyT st t key
  | _ => (false, st)

/-- Strict equality (`===`): structural equality except `NaN !== NaN`. -/
def strictEqV (a b : Val) : Bool :=
  match a, b with
  | .num .nan, .num .nan => false
  | _, _ => a == b

/-- SameValueZero, used by `Array.prototype.includes` (NaN matches
itself; negative zero is not modelled). -/
def sameValueZeroV (a b : Val) : Bool := a == b

/-- The native identity-sensitive lookups, run against a plain element
list.  Only the searched element matters here; the optional `fromIndex`
argument is not modelled (the instrumentation forwards arguments
unchanged either way). -/
def nativeSearch (m : InstrMethod) (elems : List Val) (args : List Val) : Val :=
  let x := args.headD .undef
  match m with
  | .includes => .bool (elems.any (fun e => sameValueZeroV e x))
  | .indexOf =>
      match elems.findIdx? (fun e => strictEqV e x) with
      | some i => .num (.fin i)
      | none => .num (.fin (-1))
  | .lastIndexOf =>
      match elems.reverse.findIdx? (fun e => strictEqV e x) with
      | some i => .num (.fin (elems.length - 1 - i))
      | none => .num (.fin (-1))
  | _ => .undef

def toNatV : Val → Nat
  | .num (.fin i) => i.toNat
  | _ => 0

def toIntV : Val → Int
  | .num (.fin i) => i
  | .bool true => 1
  | _ => 0

/-- The instrumented `includes` / `indexOf` / `lastIndexOf`: read the
loop bound `this.length` through the proxy, force a read-track on every
index of the raw array, run the native method with the original
arguments, and on the not-found sentinel retry with all arguments
unwrapped to raw. -/
def instrIdentityCall (m : InstrMethod) (st : St) (selfP : Nat) (args : List Val) : Val × St :=
  let arrA := match toRawV st (.addr selfP) with | .addr a => a | _ => selfP
  let gl := proxyGet st selfP lengthKey
  let l := toNatV gl.1
  let st2 := (List.range l).foldl (fun s i => track s arrA .get (.str (toString i))) gl.2
  let elems := arrElemsOf st2 arrA
  let res := nativeSearch m elems args
  if res == Val.num (.fin (-1)) || res == Val.bool false then
    (nativeSearch m elems (args.map (toRawV st2)), st2)
  else (res, st2)

/-- Set the array `length` through the proxy traps. -/
def setLenViaProxy (st : St) (p : Nat) (n : Nat) : St :=
  (proxySet st p lengthKey (.num (.fin n))).2

/-- Store `args` at indices `l, l+1, ...` through the proxy traps. -/
def storeArgsFrom (st : St) (p : Nat) (l : Nat) (args : List Val) : St :=
  args.enum.foldl (fun s iv => (proxySet s p (.str (toString (l + iv.1))) iv.2).2) st

/-- `Array.prototype.push` applied with the wrapper as receiver (the
method itself is fetched from the raw array): reads `length` and writes
elements and `length` through the proxy traps. -/
def nativePush (st : St) (p : Nat) (args : List Val) : Val × St :=
  let gl := proxyGet st p lengthKey
  let l := toNatV gl.1
  let st2 := storeArgsFrom gl.2 p l args
  (.num (.fin (l + args.length)), setLenViaProxy st2 p (l + args.length))

/-- `Array.prototype.pop` via the proxy traps. -/
def nativePop (st : St) (p : Nat) : Val × St :=
  let gl := proxyGet st p lengthKey
  let l := toNatV gl.1
  if l == 0 then
    (.undef, setLenViaProxy gl.2 p 0)
  else
    let gv := proxyGet gl.2 p (.str (toString (l - 1)))
    let st3 := (proxyDelete gv.2 p (.str (toString (l - 1)))).2
    (gv.1, setLenViaProxy st3 p (l - 1))

/-- The element-moving loop of `shift`: `this[k] = this[k+1]` for
`k = 0 .. l-2`, through the proxy traps. -/
def shiftMove (st : St) (p : Nat) (l : Nat) : St :=
  (List.range (l - 1)).foldl
    (fun s k =>
      let gk := proxyGet s p (.str (toString (k + 1)))
      (proxySet gk.2 p (.str (toString k)) gk.1).2) st

/-- `Array.prototype.shift` via the proxy traps. -/
def nativeShift (st : St) (p : Nat) : Val × St :=
  let gl := proxyGet st p lengthKey
  let l := toNatV gl.1
  if l == 0 then
    (.undef, setLenViaProxy gl.2 p 0)
  else
    let gv := proxyGet gl.2 p (.str "0")
    let st3 := shiftMove gv.2 p l
    let st4 := (proxyDelete st3 p (.str (toString (l - 1)))).2
    (gv.1, setLenViaProxy st4 p (l - 1))

/-- The element-moving loop of `unshift`: `this[k+n] = this[k]` for
`k = l-1 .. 0`, through the proxy traps. -/
def unshiftMove (st : St) (p : Nat) (l n : Nat) : St :=
  ((List.range l).reverse).foldl
    (fun s k =>
      let gk := proxyGet s p (.str (toString k))
      (proxySet gk.2 p (.str (toString (k + n))) gk.1).2) st

/-- `Array.prototype.unshift` via the proxy traps. -/
def nativeUnshift (st : St) (p : Nat) (args : List Val) : Val × St :=
  let gl := proxyGet st p lengthKey
  let l := toNatV gl.1
  let n := args.length
  let st2 := if n == 0 then gl.2 else storeArgsFrom (unshiftMove gl.2 p l n) p 0 args
  (.num (.fin (l + n)), setLenViaProxy st2 p (l + n))

/-- The clamped splice start (`ToIntegerOrInfinity` handling of a
negative start relative to the length). -/
def spliceStart (l : Nat) (args : List Val) : Nat :=
  let startI := toIntV (args.headD .undef)
  if startI < 0 then ((l : Int) + startI).toNat else min startI.toNat l

/-- The clamped splice delete count. -/
def spliceDC (l aStart : Nat) (args : List Val) : Nat :=
  if args.length == 0 then 0
  else if args.length == 1 then l - aStart
  else min (max (toIntV (args[1]?.getD .undef)) 0).toNat (l - aStart)

/-- Collect the elements removed by `splice` through the proxy traps. -/
def spliceCollect (st : St) (p : Nat) (aStart aDC : Nat) : List Val × St :=
  (List.range aDC).foldl
    (fun (acc : List Val × St) i =>
      let gi := proxyGet acc.2 p (.str (toString (aStart + i)))
      (acc.1 ++ [gi.1], gi.2)) ([], st)

/-- `splice` tail shift when fewer items are inserted than deleted:
move the tail left, then delete the now-dangling top slots. -/
def spliceShrink (st : St) (p : Nat) (l aStart aDC n : Nat) : St :=
  let shifted := (List.range (l - aDC - aStart)).foldl
    (fun s k =>
      let gk := proxyGet s p (.str (toString (aStart + k + aDC)))
      (proxySet gk.2 p (.str (toString (aStart + k + n))) gk.1).2) st
  (List.range (aDC - n)).foldl
    (fun s i => (proxyDelete s p (.str (toString (l - 1 - i)))).2) shifted

/-- `splice` tail shift when more items are inserted than deleted:
move the tail right (right-to-left). -/
def spliceGrow (st : St) (p : Nat) (l aStart aDC n : Nat) : St :=
  ((List.range (l - aDC - aStart)).reverse).foldl
    (fun s k =>
      let gk := proxyGet s p (.str (toString (aStart + k + aDC)))
      (proxySet gk.2 p (.str (toString (aStart + k + n))) gk.1).2) st

/-- `Array.prototype.splice` via the proxy traps: clamp the start and
delete count, collect the removed elements (returned as a fresh raw
array), shift the tail left or right, store the inserted items, and set
the final length. -/
def nativeSplice (st : St) (p : Nat) (args : List Val) : Val × St :=
  let gl := proxyGet st p lengthKey
  let l := toNatV gl.1
  let aStart := spliceStart l args
  let aDC := spliceDC l aStart args
  let items := args.drop 2
  let n := items.length
  let col := spliceCollect gl.2 p aStart aDC
  let st3 :=
    if n < aDC then spliceShrink col.2 p l aStart aDC n
    else if n > aDC then spliceGrow col.2 p l aStart aDC n
    else col.2
  let st4 := storeArgsFrom st3 p aStart items
  let st5 := setLenViaProxy st4 p (l - aDC + n)
  let st6 := addHeap st5 (.arr col.1 true false)
  (.addr st5.heap.length, st6)

/-- Dispatch of the length-mutating natives (applied with the wrapper as
receiver, as `toRaw(this)[key].apply(this, args)` does). -/
def nativeMutViaProxy (m : InstrMethod) (st : St) (p : Nat) (args : List Val) : Val × St :=
  match m with
  | .push => nativePush st p args
  | .pop => nativePop st p
  | .shift => nativeShift st p
  | .unshift => nativeUnshift st p args
  | .splice => nativeSplice st p args
  | _ => (.undef, st)

/-- The instrumented `push` / `pop` / `shift` / `unshift` / `splice`:
suppress tracking for the duration of the call, run the raw method, and
restore the previous tracking state. -/
def instrMutatorCall (m : InstrMethod) (st : St) (selfP : Nat) (args : List Val) : Val × St :=
  let st1 := pauseTracking st
  let r := nativeMutViaProxy m st1 selfP args
  (r.1, resetTracking r.2)

/-- The registry well-formedness the factory maintains: every registry
entry points at a proxy over its key with the registry's variant. -/
def wfEntry (st : St) (ro sh : Bool) (e : Nat × Nat) : Bool :=
  match heapAt st e.2 with
  | some (.proxyE t ro' sh' _) => t == e.1 && ro' == ro && sh' == sh
  | _ => false

def wfRegistries (st : St) : Bool :=
  st.reactiveM.all (wfEntry st false false) &&
  st.shallowReactiveM.all (wfEntry st false true) &&
  st.readonlyM.all (wfEntry st true false) &&
  st.shallowReadonlyM.all (wfEntry st true true)

/-- The condition under which the read trap actually calls `track`
(given a receiver that is the registered wrapper of the target): the
handler is mutable, the key is none of the reserved flag keys, not a
runtime-builtin well-known symbol, not a non-trackable key, and — on an
array — not an instrumented array method name. -/
def tracksCond (st : St) (ro : Bool) (t : Nat) (key : JSKey) : Bool :=
  !ro && !(key == isReactiveKey) && !(key == isReadonlyKey) && !(key == isShallowKey) &&
  !(key == rawKey) && !(isBuiltInSymbolKey key) && !(isNonTrackableKey key) &&
  !(isArrayE st t && (instrOfKey key).isSome)

/-- Preservation of the tracking-suppression state across an operation:
`shouldTrack`, the suppression stack and the reader-context flag are
unchanged, and with tracking suppressed no dependency edge is added. -/
def TrkPres (st st' : St) : Prop :=
  st'.shouldTrack = st.shouldTrack ∧ st'.trackStack = st.trackStack ∧
  st'.activeReader = st.activeReader ∧ (st.shouldTrack = false → st'.deps = st.deps)

/-- A baseline state for concrete evaluations. -/
def emptySt : St :=
  { heap := [], reactiveM := [], shallowReactiveM := [], readonlyM := [],
    shallowReadonlyM := [], trackCalls := [], deps := [], triggerLog := [],
    warnCount := 0, shouldTrack := true, trackStack := [], activeReader := true }

/-- A state holding a raw plain object `{a: 1}` at address 0 and its
registered mutable deep wrapper at address 1. -/
def objSt : St :=
  { emptySt with
    heap := [.obj .plain [(.str "a", .num (.fin 1))] true false, .proxyE 0 false false false]
    reactiveM := [(0, 1)] }

/-- A state holding a raw array `[10]` at address 0 and its registered
mutable deep wrapper at address 1. -/
def arrSt : St :=
  { emptySt with
    heap := [.arr [.num (.fin 10)] true false, .proxyE 0 false false false]
    reactiveM := [(0, 1)] }

/-- A state holding a readonly deep wrapper (address 1) over the raw
object `{a: 1}` at address 0. -/
def roSt : St :=
  { emptySt with
    heap := [.obj .plain [(.str "a", .num (.fin 1))] true false, .proxyE 0 true false false]
    readonlyM := [(0, 1)] }

/-- A state with a readonly-wrapped boxed reference stored under key
`"r"` of a raw object: address 0 is the object, address 1 the cell,
address 2 the readonly wrapper of the cell; address 3 wraps the object
mutably. -/
def roRefSt : St :=
  { emptySt with
    heap := [.obj .plain [(.str "r", .addr 2)] true false, .refCell (.num (.fin 5)),
             .proxyE 1 true false false, .proxyE 0 false false false]
    readonlyM := [(1, 2)]
    reactiveM := [(0, 3)] }

/-- A state with a plain boxed reference stored under key `"r"` of a raw
object wrapped mutably. -/
def refSt : St :=
  { emptySt with
    heap := [.obj .plain [(.str "r", .addr 1)] true false, .refCell (.num (.fin 5)),
             .proxyE 0 false false false]
    reactiveM := [(0, 2)] }

/-- A state holding a single unwrapped plain object. -/
def plainSt : St := { emptySt with heap := [.obj .plain [] true false] }

/-- A state holding a single skip-marked plain object, never wrapped. -/
def skipSt : St := { emptySt with heap := [.obj .plain [] true true] }

/-! Infrastructure lemmas: state projections of the primitive effects,
heap-extension stability, and registry lookups. -/

@[simp] lemma warnSt_proj (st : St) :
    (warnSt st).heap = st.heap ∧ (warnSt st).trackCalls = st.trackCalls ∧
    (warnSt st).deps = st.deps ∧ (warnSt st).triggerLog = st.triggerLog ∧
    (warnSt st).shouldTrack = st.shouldTrack ∧ (warnSt st).trackStack = st.trackStack ∧
    (warnSt st).reactiveM = st.reactiveM ∧ (warnSt st).shallowReactiveM = st.shallowReactiveM ∧
    (warnSt st).readonlyM = st.readonlyM ∧ (warnSt st).shallowReadonlyM = st.shallowReadonlyM ∧
    (warnSt st).activeReader = st.activeReader := by
  simp [warnSt]

@[simp] lemma track_proj (st : St) (a : Nat) (op : TrackOp) (k : JSKey) :
    (track st a op k).heap = st.heap ∧ (track st a op k).triggerLog = st.triggerLog ∧
    (track st a op k).shouldTrack = st.shouldTrack ∧
    (track st a op k).trackStack = st.trackStack ∧
    (track st a op k).warnCount = st.warnCount ∧
    (track st a op k).reactiveM = st.reactiveM ∧
    (track st a op k).shallowReactiveM = st.shallowReactiveM ∧
    (track st a op k).readonlyM = st.readonlyM ∧
    (track st a op k).shallowReadonlyM = st.shallowReadonlyM ∧
    (track st a op k).activeReader = st.activeReader := by
  simp [track]

@[simp] lemma track_trackCalls (st : St) (a : Nat) (op : TrackOp) (k : JSKey) :
    (track st a op k).trackCalls = st.trackCalls ++ [(a, op, k)] := rfl

@[simp] lemma trigger_proj (st : St) (a : Nat) (op : TriggerOp) (k : JSKey) (nv : Val)
    (ov : Option Val) :
    (trigger st a op k nv ov).heap = st.heap ∧
    (trigger st a op k nv ov).trackCalls = st.trackCalls ∧
    (trigger st a op k nv ov).deps = st.deps ∧
    (trigger st a op k nv ov).shouldTrack = st.shouldTrack ∧
    (trigger st a op k nv ov).trackStack = st.trackStack ∧
    (trigger st a op k nv ov).warnCount = st.warnCount ∧
    (trigger st a op k nv ov).activeReader = st.activeReader := by
  simp [trigger]

@[simp] lemma mapInsert_proj (st : St) (ro sh : Bool) (a p : Nat) :
    (mapInsert st ro sh a p).heap = st.heap ∧
    (mapInsert st ro sh a p).trackCalls = st.trackCalls ∧
    (mapInsert st ro sh a p).deps = st.deps ∧
    (mapInsert st ro sh a p).triggerLog = st.triggerLog ∧
    (mapInsert st ro sh a p).shouldTrack = st.shouldTrack ∧
    (mapInsert st ro sh a p).trackStack = st.trackStack ∧
    (mapInsert st ro sh a p).warnCount = st.warnCount ∧
    (mapInsert st ro sh a p).activeReader = st.activeReader := by
  cases ro <;> cases sh <;> simp [mapInsert]

@[simp] lemma addHeap_proj (st : St) (e : Entity) :
    (addHeap st e).trackCalls = st.trackCalls ∧ (addHeap st e).deps = st.deps ∧
    (addHeap st e).triggerLog = st.triggerLog ∧
    (addHeap st e).shouldTrack = st.shouldTrack ∧
    (addHeap st e).trackStack = st.trackStack ∧
    (addHeap st e).warnCount = st.warnCount ∧
    (addHeap st e).reactiveM = st.reactiveM ∧
    (addHeap st e).shallowReactiveM = st.shallowReactiveM ∧
    (addHeap st e).readonlyM = st.readonlyM ∧
    (addHeap st e).shallowReadonlyM = st.shallowReadonlyM ∧
    (addHeap st e).activeReader = st.activeReader := by
  simp [addHeap]

lemma heapAt_lt (st : St) (a : Nat) (e : Entity) (h : heapAt st a = some e) :
    a < st.heap.length := by
  by_contra hge
  simp [heapAt, List.getElem?_eq_none (Nat.le_of_not_lt hge)] at h

lemma heapAt_addHeap_lt (st : St) (e : Entity) (a : Nat) (h : a < st.heap.length) :
    heapAt (addHeap st e) a = heapAt st a := by
  simp [heapAt, addHeap, List.getElem?_append, h]

lemma heapAt_addHeap_self (st : St) (e : Entity) :
    heapAt (addHeap st e) st.heap.length = some e := by
  simp [heapAt, addHeap]

lemma mapGet_mapInsert_self (st : St) (ro sh : Bool) (a p : Nat) :
    mapGet (mapInsert st ro sh a p) ro sh a = some p := by
  cases ro <;> cases sh <;> simp [mapGet, mapInsert, alookup]

lemma mapGet_addHeap (st : St) (e : Entity) (ro sh : Bool) (a : Nat) :
    mapGet (addHeap st e) ro sh a = mapGet st ro sh a := by
  cases ro <;> cases sh <;> simp [mapGet, addHeap]

lemma createReactiveObject_trackCalls (st : St) (v : Val) (ro sh : Bool) :
    (createReactiveObject st v ro sh).2.trackCalls = st.trackCalls := by
  cases v <;> simp only [createReactiveObject] <;> (repeat' split) <;> simp_all

lemma createReactiveObject_deps (st : St) (v : Val) (ro sh : Bool) :
    (createReactiveObject st v ro sh).2.deps = st.deps := by
  cases v <;> simp only [createReactiveObject] <;> (repeat' split) <;> simp_all

lemma createReactiveObject_shouldTrack (st : St) (v : Val) (ro sh : Bool) :
    (createReactiveObject st v ro sh).2.shouldTrack = st.shouldTrack := by
  cases v <;> simp only [createReactiveObject] <;> (repeat' split) <;> simp_all

lemma createReactiveObject_trackStack (st : St) (v : Val) (ro sh : Bool) :
    (createReactiveObject st v ro sh).2.trackStack = st.trackStack := by
  cases v <;> simp only [createReactiveObject] <;> (repeat' split) <;> simp_all

lemma createReactiveObject_triggerLog (st : St) (v : Val) (ro sh : Bool) :
    (createReactiveObject st v ro sh).2.triggerLog = st.triggerLog := by
  cases v <;> simp only [createReactiveObject] <;> (repeat' split) <;> simp_all

lemma reactiveF_trackCalls (st : St) (v : Val) :
    (reactiveF st v).2.trackCalls = st.trackCalls := by
  unfold reactiveF; split
  · rfl
  · exact createReactiveObject_trackCalls st v false false

lemma readonlyF_trackCalls (st : St) (v : Val) :
    (readonlyF st v).2.trackCalls = st.trackCalls := by
  unfold readonlyF; exact createReactiveObject_trackCalls st v true false

/-- On a skip-marked value the classifier is `invalid`. -/
lemma getTargetTypeE_skip (st : St) (v : Val) (hs : skipOf st v = true) :
    getTargetTypeE st v = TargetType.invalid := by
  simp [getTargetTypeE, hs]

/-- The factory passes a skip-marked, uncached structural value through
unchanged. -/
lemma createReactiveObject_skip (st : St) (a : Nat) (ro sh : Bool)
    (ho : isObjectV st (.addr a) = true) (hs : skipOf st (.addr a) = true)
    (hm : mapGet st ro sh a = none) :
    createReactiveObject st (.addr a) ro sh = (.addr a, st) := by
  have hinv := getTargetTypeE_skip st (.addr a) hs
  simp only [createReactiveObject, ho, Bool.not_true, Bool.false_eq_true, if_false]
  split
  · rfl
  · rw [hm]; simp [hinv]

lemma toRawF_stops (n : Nat) (st : St) (v : Val) (hv : truthy (rawFlagVal st v) = false) :
    toRawF n st v = v := by
  cases n <;> simp [toRawF, hv]

lemma toRawF_succ (n : Nat) (st : St) (v : Val) :
    toRawF (n + 1) st v =
      if truthy (rawFlagVal st v) then toRawF n st (rawFlagVal st v) else v := rfl

/-- `toRaw` of a registered proxy over a raw (non-chaining) target. -/
lemma toRawV_proxy (st : St) (p t : Nat) (ro sh c : Bool)
    (hp : heapAt st p = some (.proxyE t ro sh c))
    (ht : truthy (rawFlagVal st (.addr t)) = false) :
    toRawV st (.addr p) = .addr t := by
  have hlen := heapAt_lt st p _ hp
  obtain ⟨k, hk⟩ : ∃ k, st.heap.length = k + 1 := ⟨st.heap.length - 1, by omega⟩
  have h1 : rawFlagVal st (.addr p) = .addr t := by simp [rawFlagVal, hp]
  unfold toRawV
  rw [hk]
  show toRawF (k + 1 + 1) st (.addr p) = .addr t
  rw [toRawF_succ, h1]
  simp [truthy, toRawF_stops _ _ _ ht]

lemma rawGet_heap_eq (st st' : St) (h : st'.heap = st.heap) (a : Nat) (k : JSKey) :
    rawGet st' a k = rawGet st a k := by
  unfold rawGet heapAt; rw [h]

lemma rawFlagVal_heap_eq (st st' : St) (h : st'.heap = st.heap) (v : Val) :
    rawFlagVal st' v = rawFlagVal st v := by
  unfold rawFlagVal heapAt
  cases v <;> simp only [h, rawGet_heap_eq st st' h]

lemma toRawF_heap_eq (n : Nat) (st st' : St) (h : st'.heap = st.heap) (v : Val) :
    toRawF n st' v = toRawF n st v := by
  induction n generalizing v with
  | zero => rfl
  | succ k ih => simp only [toRawF, rawFlagVal_heap_eq st st' h]; split <;> simp [ih]

lemma toRawV_heap_eq (st st' : St) (h : st'.heap = st.heap) (v : Val) :
    toRawV st' v = toRawV st v := by
  unfold toRawV; rw [h, toRawF_heap_eq _ st st' h]

/-- The getter on an ordinary (non-flag, non-instrumented, trackable)
key, with all branch conditions discharged. -/
lemma baseGet_data_key (ro sh : Bool) (st : St) (t : Nat) (key : JSKey) (receiver : Val)
    (h1 : (key == isReactiveKey) = false) (h2 : (key == isReadonlyKey) = false)
    (h3 : (key == isShallowKey) = false) (h4 : (key == rawKey) = false)
    (h5 : (!ro && isArrayE st t && (instrOfKey key).isSome) = false)
    (h6 : skipTracking key = false) :
    baseGet ro sh st t key receiver =
      (let res := rawGet st t key
       let st1 := if !ro then track st t .get key else st
       if sh then (res, st1)
       else if isRefV st1 res then
         if isArrayE st t && isIntegerKey key then (res, st1) else (refInnerRead st1 res, st1)
       else if isObjectV st1 res then
         if ro then readonlyF st1 res else reactiveF st1 res
       else (res, st1)) := by
  simp only [baseGet, h1, h2, h3, h4, h5, h6, Bool.false_eq_true, if_false,
    Bool.false_and, Bool.and_false]

/-- A fold of index tracks is one batch append to the logs. -/
lemma foldl_track_eq (idxs : List Nat) (st : St) (a : Nat) :
    idxs.foldl (fun s i => track s a .get (.str (toString i))) st =
      { st with
        trackCalls := st.trackCalls ++
          idxs.map (fun i => (a, TrackOp.get, JSKey.str (toString i)))
        deps := if st.shouldTrack && st.activeReader
          then st.deps ++ idxs.map (fun i => (a, TrackOp.get, JSKey.str (toString i)))
          else st.deps } := by
  induction idxs generalizing st with
  | nil => split <;> simp
  | cons i rest ih =>
      rw [List.foldl_cons, ih]
      cases hc : st.shouldTrack && st.activeReader with
      | true => simp_all [track]
      | false => simp_all [track]

/-! Claim theorems. -/

/-- Claim C6: the set and delete traps of a readonly-variant wrapper
never mutate the underlying raw value for any key, emit a non-fatal
warning, and report success to the caller. -/
theorem c6_readonly_rejection (st : St) (p t : Nat) (sh c : Bool) (key : JSKey) (value : Val)
    (hp : heapAt st p = some (.proxyE t true sh c)) :
    proxySet st p key value = (true, warnSt st) ∧
    proxyDelete st p key = (true, warnSt st) ∧
    (warnSt st).heap = st.heap ∧ (warnSt st).warnCount = st.warnCount + 1 := by
  simp [proxySet, proxyDelete, hp, readonlySetT, readonlyDeleteT, warnSt]

/-- Witness for C6 at a concrete readonly wrapper: writing and deleting
key `a` report success, warn, and leave the heap intact. -/
theorem c6_readonly_rejection_wit :
    heapAt roSt 1 = some (.proxyE 0 true false false) ∧
    (proxySet roSt 1 (.str "a") (.num (.fin 2)) = (true, warnSt roSt) ∧
     proxyDelete roSt 1 (.str "a") = (true, warnSt roSt) ∧
     (warnSt roSt).heap = roSt.heap ∧ (warnSt roSt).warnCount = roSt.warnCount + 1) :=
  ⟨by decide, c6_readonly_rejection roSt 1 0 false false (.str "a") (.num (.fin 2)) (by decide)⟩

/-- Claim C10 counterexample: wrap `x` first, then `markNeverWrap(x)`,
then wrap again — the registry is consulted before the skip check, so
the second wrap returns the cached wrapper (address 1), not `x`
(address 0), refuting "every subsequent wrap request for x returns x". -/
theorem c10_counterexample :
    skipOf (markRawF (reactiveF plainSt (.addr 0)).2 (.addr 0)) (.addr 0) = true ∧
    (reactiveF (markRawF (reactiveF plainSt (.addr 0)).2 (.addr 0)) (.addr 0)).1 = .addr 1 ∧
    Val.addr 1 ≠ Val.addr 0 := by decide

/-- Claim C10 (amended): the classifier returns `invalid` exactly when
the skip marker reads true, or the value is not extensible, or its
runtime kind is none of Object/Array/Map/Set/WeakMap/WeakSet; and after
`markRaw`, a wrap request at any variant *for which the value has no
cached wrapper* returns the value itself with the state unchanged (hence
permanently). -/
theorem c10_amended :
    (∀ (st : St) (v : Val), getTargetTypeE st v = TargetType.invalid ↔
      (skipOf st v = true ∨ extensibleOf st v = false ∨
       (rawTypeOf st v ≠ .object ∧ rawTypeOf st v ≠ .array ∧ rawTypeOf st v ≠ .mapT ∧
        rawTypeOf st v ≠ .setT ∧ rawTypeOf st v ≠ .weakMapT ∧ rawTypeOf st v ≠ .weakSetT))) ∧
    (∀ (st : St) (a : Nat) (ro sh : Bool), isObjectV st (.addr a) = true →
      skipOf st (.addr a) = true → mapGet st ro sh a = none →
      wrapV ro sh st (.addr a) = (.addr a, st)) := by
  constructor
  · intro st v
    cases h : rawTypeOf st v <;> cases hs : skipOf st v <;> cases he : extensibleOf st v <;>
      simp [getTargetTypeE, targetTypeMap, hs, he, h]
  · intro st a ro sh ho hs hm
    have hc := createReactiveObject_skip st a ro sh ho hs hm
    cases ro <;> cases sh <;>
      simp only [wrapV, reactiveF, shallowReactiveF, readonlyF, shallowReadonlyF, hc] <;>
      split <;> rfl

/-- Witness for C10 (amended) at a marked, uncached plain object: the
classifier rejects it and every factory passes it through unchanged. -/
theorem c10_amended_wit :
    (getTargetTypeE skipSt (.addr 0) = TargetType.invalid ↔
      (skipOf skipSt (.addr 0) = true ∨ extensibleOf skipSt (.addr 0) = false ∨
       (rawTypeOf skipSt (.addr 0) ≠ .object ∧ rawTypeOf skipSt (.addr 0) ≠ .array ∧
        rawTypeOf skipSt (.addr 0) ≠ .mapT ∧ rawTypeOf skipSt (.addr 0) ≠ .setT ∧
        rawTypeOf skipSt (.addr 0) ≠ .weakMapT ∧ rawTypeOf skipSt (.addr 0) ≠ .weakSetT))) ∧
    wrapV true false skipSt (.addr 0) = (.addr 0, skipSt) :=
  ⟨c10_amended.1 skipSt (.addr 0),
   c10_amended.2 skipSt 0 true false (by decide) (by decide) (by decide)⟩

/-- Claim C4 counterexample: on a mutable array wrapper, reading the key
`includes` satisfies every condition of the claimed iff (the handler is
not readonly; the key is no reserved flag key, no builtin symbol, and
not non-trackable), yet the getter resolves it to the array
instrumentation and never calls `track`. -/
theorem c4_counterexample :
    ((JSKey.str "includes") ≠ isReactiveKey ∧ (JSKey.str "includes") ≠ isReadonlyKey ∧
     (JSKey.str "includes") ≠ isShallowKey ∧ (JSKey.str "includes") ≠ rawKey ∧
     isBuiltInSymbolKey (.str "includes") = false ∧
     isNonTrackableKey (.str "includes") = false) ∧
    (baseGet false false arrSt 0 (.str "includes") (.addr 1)).2.trackCalls = arrSt.trackCalls ∧
    (baseGet false false arrSt 0 (.str "includes") (.addr 1)).2.deps = arrSt.deps := by decide

/-- Claim C4 (amended): for a read through the registered wrapper of the
target, the trap calls `track(target, GET, key)` (exactly once, appended
to the call log) iff the handler is not readonly, the key is none of the
reserved flag keys, not a builtin well-known symbol, not one of the
fixed non-trackable keys, and — on an array under the mutable handler —
not an instrumented array method name; otherwise the call log is
unchanged. -/
theorem c4_amended (ro sh : Bool) (st : St) (t : Nat) (key : JSKey) (rp : Nat)
    (hreg : mapGet st ro sh t = some rp) :
    (baseGet ro sh st t key (.addr rp)).2.trackCalls =
      st.trackCalls ++ (if tracksCond st ro t key then [(t, TrackOp.get, key)] else []) := by
  have hrecv : receiverMatches st ro sh t (.addr rp) = true := by
    simp [receiverMatches, hreg]
  by_cases h1 : key = isReactiveKey
  · simp [baseGet, h1, tracksCond, isReactiveKey]
  by_cases h2 : key = isReadonlyKey
  · simp [baseGet, h1, h2, tracksCond, isReactiveKey, isReadonlyKey]
  by_cases h3 : key = isShallowKey
  · simp [baseGet, h1, h2, h3, tracksCond, isReactiveKey, isReadonlyKey, isShallowKey]
  by_cases h4 : key = rawKey
  · simp [baseGet, h1, h2, h3, h4, hrecv, tracksCond, isReactiveKey, isReadonlyKey,
      isShallowKey, rawKey]
  by_cases h5 : (!ro && isArrayE st t && (instrOfKey key).isSome) = true
  · have h5' : (!ro) = true ∧ isArrayE st t = true ∧ (instrOfKey key).isSome = true := by
      simpa [Bool.and_assoc] using h5
    have hcond : tracksCond st ro t key = false := by
      simp [tracksCond, h5'.2.1, h5'.2.2]
    simp [baseGet, h1, h2, h3, h4, h5, hcond]
  by_cases h6 : skipTracking key = true
  · have hb : isBuiltInSymbolKey key = true ∨ isNonTrackableKey key = true := by
      cases key with
      | str u => right; simpa [skipTracking, isSymK] using h6
      | sym wk i => left; simpa [skipTracking, isSymK] using h6
    have hcond : tracksCond st ro t key = false := by
      rcases hb with h | h <;> simp [tracksCond, h]
    simp [baseGet, h1, h2, h3, h4, h5, h6, hcond]
  · have hb : isBuiltInSymbolKey key = false ∧ isNonTrackableKey key = false := by
      cases key with
      | str u =>
          refine ⟨rfl, ?_⟩
          simpa [skipTracking, isSymK] using h6
      | sym wk i =>
          refine ⟨?_, rfl⟩
          simpa [skipTracking, isSymK] using h6
    cases hro : ro with
    | true =>
        have hcond : tracksCond st true t key = false := by simp [tracksCond]
        subst hro
        simp only [baseGet, hcond, Bool.false_eq_true, if_false, List.append_nil]
        simp only [hrecv, Bool.and_true]
        simp [h1, h2, h3, h4]
        (repeat' split) <;> simp [reactiveF_trackCalls, readonlyF_trackCalls]
    | false =>
        subst hro
        have harr : (isArrayE st t && (instrOfKey key).isSome) = false := by
          simpa using h5
        have hcond : tracksCond st false t key = true := by
          simp [tracksCond, hb.1, hb.2, harr]
          exact ⟨⟨⟨h1, h2⟩, h3⟩, h4⟩
        simp only [baseGet, hcond, if_true]
        simp only [hrecv, Bool.and_true]
        simp [h1, h2, h3, h4, harr, h6]
        (repeat' split) <;> simp [reactiveF_trackCalls, readonlyF_trackCalls]

/-- Witness for C4 (amended) at a concrete object wrapper: reading a
data key through the registered receiver appends exactly one track
call. -/
theorem c4_amended_wit :
    mapGet objSt false false 0 = some 1 ∧
    (baseGet false false objSt 0 (.str "a") (.addr 1)).2.trackCalls =
      objSt.trackCalls ++
        (if tracksCond objSt false 0 (.str "a") then [(0, TrackOp.get, .str "a")] else []) :=
  ⟨by decide, c4_amended false false objSt 0 (.str "a") 1 (by decide)⟩

/-- Claim C8: the instrumented `includes`/`indexOf`/`lastIndexOf` on a
mutable array wrapper read the loop bound through the proxy (one tracked
`length` read), then track a GET on every index `0..length-1` against
the raw array, then run the native method on the raw elements with the
original arguments; iff that result is the not-found sentinel (`-1` or
`false`), the method is re-run with every argument unwrapped to raw and
that second result is returned.  The heap, trigger log and tracking
stack are untouched. -/
theorem c8_identity_search (m : InstrMethod) (st : St) (p t : Nat) (sh c ext sk : Bool)
    (elems : List Val) (args : List Val)
    (hm : m = .includes ∨ m = .indexOf ∨ m = .lastIndexOf)
    (hp : heapAt st p = some (.proxyE t false sh c))
    (ht : heapAt st t = some (.arr elems ext sk)) :
    instrIdentityCall m st p args =
      ((if (nativeSearch m elems args == Val.num (.fin (-1))
            || nativeSearch m elems args == Val.bool false) = true
        then nativeSearch m elems (args.map (toRawV st))
        else nativeSearch m elems args),
       { st with
          trackCalls := st.trackCalls ++
            (t, TrackOp.get, lengthKey) ::
              (List.range elems.length).map (fun i => (t, TrackOp.get, JSKey.str (toString i)))
          deps := if st.shouldTrack && st.activeReader
            then st.deps ++
              (t, TrackOp.get, lengthKey) ::
                (List.range elems.length).map (fun i => (t, TrackOp.get, JSKey.str (toString i)))
            else st.deps }) := by
  have harr : isArrayE st t = true := by simp [isArrayE, ht]
  have hraw : truthy (rawFlagVal st (.addr t)) = false := by simp [rawFlagVal, ht, truthy]
  have htr : toRawV st (.addr p) = .addr t := toRawV_proxy st p t false sh c hp hraw
  have hlen : rawGet st t lengthKey = .num (.fin elems.length) := by
    simp [rawGet, ht, lengthKey, skipKey]
  have h5 : (!false && isArrayE st t && (instrOfKey lengthKey).isSome) = false := by
    simp [instrOfKey, lengthKey]
  have hget : proxyGet st p lengthKey = (.num (.fin elems.length), track st t .get lengthKey) := by
    simp only [proxyGet, hp]
    rw [baseGet_data_key false sh st t lengthKey (.addr p) (by decide) (by decide) (by decide)
      (by decide) h5 (by decide)]
    cases sh <;> simp [hlen, isRefV, isObjectV]
  have hnat : toNatV (.num (.fin (elems.length : Int))) = elems.length := by simp [toNatV]
  have ht' : st.heap[t]? = some (Entity.arr elems ext sk) := ht
  have hstate : (List.foldl (fun s i => track s t .get (.str (toString i)))
      (track st t .get lengthKey) (List.range elems.length)) =
      { st with
        trackCalls := st.trackCalls ++
          (t, TrackOp.get, lengthKey) ::
            (List.range elems.length).map (fun i => (t, TrackOp.get, JSKey.str (toString i)))
        deps := if st.shouldTrack && st.activeReader
          then st.deps ++
            (t, TrackOp.get, lengthKey) ::
              (List.range elems.length).map (fun i => (t, TrackOp.get, JSKey.str (toString i)))
          else st.deps } := by
    rw [foldl_track_eq]
    cases hc : st.shouldTrack && st.activeReader <;> simp_all [track]
  have hheap : (List.foldl (fun s i => track s t .get (.str (toString i)))
      (track st t .get lengthKey) (List.range elems.length)).heap = st.heap := by
    rw [hstate]
  have helems : arrElemsOf (List.foldl (fun s i => track s t .get (.str (toString i)))
      (track st t .get lengthKey) (List.range elems.length)) t = elems := by
    unfold arrElemsOf heapAt
    rw [hheap, ht']
  have hmaps : args.map (toRawV (List.foldl (fun s i => track s t .get (.str (toString i)))
      (track st t .get lengthKey) (List.range elems.length))) = args.map (toRawV st) :=
    List.map_congr_left (fun x _ => toRawV_heap_eq st _ hheap x)
  simp only [instrIdentityCall, htr, hget, hnat]
  rw [helems, hmaps, hstate]
  split <;> rfl

/-- Witness for C8 at a concrete wrapped array `[10]` searched with
`includes 10`: found on the first run, one length track plus one index
track. -/
theorem c8_identity_search_wit :
    heapAt arrSt 1 = some (.proxyE 0 false false false) ∧
    heapAt arrSt 0 = some (.arr [.num (.fin 10)] true false) ∧
    instrIdentityCall .includes arrSt 1 [.num (.fin 10)] =
      ((if (nativeSearch .includes [Val.num (.fin 10)] [.num (.fin 10)] == Val.num (.fin (-1))
            || nativeSearch .includes [Val.num (.fin 10)] [.num (.fin 10)] == Val.bool false) = true
        then nativeSearch .includes [Val.num (.fin 10)] ([Val.num (.fin 10)].map (toRawV arrSt))
        else nativeSearch .includes [Val.num (.fin 10)] [.num (.fin 10)]),
       { arrSt with
          trackCalls := arrSt.trackCalls ++
            (0, TrackOp.get, lengthKey) ::
              (List.range 1).map (fun i => (0, TrackOp.get, JSKey.str (toString i)))
          deps := if arrSt.shouldTrack && arrSt.activeReader
            then arrSt.deps ++
              (0, TrackOp.get, lengthKey) ::
                (List.range 1).map (fun i => (0, TrackOp.get, JSKey.str (toString i)))
            else arrSt.deps }) :=
  ⟨by decide, by decide,
   c8_identity_search .includes arrSt 1 0 false false true false [.num (.fin 10)]
     [.num (.fin 10)] (Or.inl rfl) (by decide) (by decide)⟩

/-- Claim C3: in the mutable set trap (away from the boxed-reference
branches), "existed before" is computed on the pre-write state — for an
array target with an integer key as `Number(key) < target.length`,
otherwise as own-key presence — and after the write a notification is
appended only when the receiver unwraps back to the same target: an ADD
trigger if the key did not exist before, else a SET trigger carrying old
and new value exactly when the new value differs from the old under a
comparison treating NaN as equal to itself; an unchanged value triggers
nothing. -/
theorem c3_write_classification (sh : Bool) (st : St) (t : Nat) (key : JSKey)
    (value receiver : Val)
    (hOld : isRefV st (rawGet st t key) = false)
    (hOldRaw : isRefV st (toRawV st (rawGet st t key)) = false) :
    let oldValue0 := rawGet st t key
    let raws := !sh && !isShallowV st value && !isReadonlyV st value
    let oldValue := if raws then toRawV st oldValue0 else oldValue0
    let value' := if raws then toRawV st value else value
    let hadKey := if isArrayE st t && isIntegerKey key
      then keyToNat key < arrLen st t else hasOwnE st t key
    let ws := rawSet st t key value'
    baseSet sh st t key value receiver =
      (ws.1,
       if toRawV ws.2 receiver == Val.addr t then
         if !hadKey then trigger ws.2 t .add key value' none
         else if hasChangedV value' oldValue then trigger ws.2 t .set key value' (some oldValue)
         else ws.2
       else ws.2) := by
  simp only [baseSet, hOld, Bool.and_false, Bool.false_and, Bool.false_eq_true, if_false]
  have hcond : (!sh && !isArrayE st t &&
      isRefV st (if (!sh && !isShallowV st value && !isReadonlyV st value) = true
        then toRawV st (rawGet st t key) else rawGet st t key) &&
      !isRefV st (if (!sh && !isShallowV st value && !isReadonlyV st value) = true
        then toRawV st value else value)) = false := by
    cases hr : (!sh && !isShallowV st value && !isReadonlyV st value) <;>
      simp [hr, hOld, hOldRaw]
  simp only [hcond, Bool.false_eq_true, if_false]

/-- Witness for C3 at a concrete object wrapper: setting `a` from 1 to 2
through the registered receiver yields one SET notification with old
value 1 and new value 2. -/
theorem c3_write_classification_wit :
    isRefV objSt (rawGet objSt 0 (.str "a")) = false ∧
    isRefV objSt (toRawV objSt (rawGet objSt 0 (.str "a"))) = false ∧
    (let oldValue0 := rawGet objSt 0 (.str "a")
     let raws := !false && !isShallowV objSt (.num (.fin 2)) && !isReadonlyV objSt (.num (.fin 2))
     let oldValue := if raws then toRawV objSt oldValue0 else oldValue0
     let value' := if raws then toRawV objSt (.num (.fin 2)) else (.num (.fin 2))
     let hadKey := if isArrayE objSt 0 && isIntegerKey (.str "a")
       then keyToNat (.str "a") < arrLen objSt 0 else hasOwnE objSt 0 (.str "a")
     let ws := rawSet objSt 0 (.str "a") value'
     baseSet false objSt 0 (.str "a") (.num (.fin 2)) (.addr 1) =
       (ws.1,
        if toRawV ws.2 (.addr 1) == Val.addr 0 then
          if !hadKey then trigger ws.2 0 .add (.str "a") value' none
          else if hasChangedV value' oldValue then
            trigger ws.2 0 .set (.str "a") value' (some oldValue)
          else ws.2
        else ws.2)) :=
  ⟨by decide, by decide,
   c3_write_classification false objSt 0 (.str "a") (.num (.fin 2)) (.addr 1)
     (by decide) (by decide)⟩

/-- Claim C5: away from the flag keys, the instrumentation branch and
the non-tracked keys, the shallow getter returns the raw read result
as-is, while the deep getter unwraps a boxed-reference result to its
inner value (except on an array at an integer key, where the box itself
is returned) and recursively wraps a structural result — readonly if the
handler is readonly, mutable otherwise. -/
theorem c5_read_conversion (ro : Bool) (st : St) (t : Nat) (key : JSKey) (receiver : Val)
    (h1 : (key == isReactiveKey) = false) (h2 : (key == isReadonlyKey) = false)
    (h3 : (key == isShallowKey) = false) (h4 : (key == rawKey) = false)
    (h5 : (!ro && isArrayE st t && (instrOfKey key).isSome) = false)
    (h6 : skipTracking key = false) :
    let res := rawGet st t key
    let st1 := if !ro then track st t .get key else st
    (baseGet ro true st t key receiver = (res, st1)) ∧
    (baseGet ro false st t key receiver =
      (if isRefV st1 res then
        if isArrayE st t && isIntegerKey key then (res, st1) else (refInnerRead st1 res, st1)
       else if isObjectV st1 res then
        if ro then readonlyF st1 res else reactiveF st1 res
       else (res, st1))) := by
  constructor
  · rw [baseGet_data_key ro true st t key receiver h1 h2 h3 h4 h5 h6]
    simp
  · rw [baseGet_data_key ro false st t key receiver h1 h2 h3 h4 h5 h6]
    simp only [Bool.false_eq_true, if_false]

/-- Witness for C5 at a concrete wrapped object holding a boxed
reference under `r`: the deep read unwraps the box to its inner value 5,
the shallow read returns the box itself. -/
theorem c5_read_conversion_wit :
    ((JSKey.str "r") == isReactiveKey) = false ∧
    (!false && isArrayE refSt 0 && (instrOfKey (.str "r")).isSome) = false ∧
    (let res := rawGet refSt 0 (.str "r")
     let st1 := if !false then track refSt 0 .get (.str "r") else refSt
     (baseGet false true refSt 0 (.str "r") (.addr 2) = (res, st1)) ∧
     (baseGet false false refSt 0 (.str "r") (.addr 2) =
       (if isRefV st1 res then
         if isArrayE refSt 0 && isIntegerKey (.str "r") then (res, st1)
         else (refInnerRead st1 res, st1)
        else if isObjectV st1 res then
         if false then readonlyF st1 res else reactiveF st1 res
        else (res, st1)))) :=
  ⟨by decide, by decide,
   c5_read_conversion false refSt 0 (.str "r") (.addr 2)
     (by decide) (by decide) (by decide) (by decide) (by decide) (by decide)⟩

/-- Claim C7: (a) if the old value at the key is a readonly boxed
reference and the incoming value is not a boxed reference, the mutable
set trap rejects the write (returns `false`) without touching the state;
(b) for the deep setter on a non-array target whose old value is a boxed
reference and whose (possibly raw-unwrapped) incoming value is not, the
write goes into the box's inner slot and reports success, leaving the
field still pointing at the same box. -/
theorem c7_boxed_reference_writes :
    (∀ (sh : Bool) (st : St) (t : Nat) (key : JSKey) (value receiver : Val),
      isReadonlyV st (rawGet st t key) = true → isRefV st (rawGet st t key) = true →
      isRefV st value = false →
      baseSet sh st t key value receiver = (false, st)) ∧
    (∀ (st : St) (t ra : Nat) (kind : ObjKind) (fields : List (JSKey × Val)) (ext sk : Bool)
       (key : JSKey) (inner value receiver : Val),
      heapAt st t = some (.obj kind fields ext sk) →
      flookup fields key = some (.addr ra) →
      (key == skipKey && sk) = false →
      heapAt st ra = some (.refCell inner) →
      isRefV st value = false → isRefV st (toRawV st value) = false →
      (let value' := if !isShallowV st value && !isReadonlyV st value
         then toRawV st value else value
       baseSet false st t key value receiver =
         (true, { st with heap := st.heap.set ra (.refCell value') }) ∧
       rawGet { st with heap := st.heap.set ra (.refCell value') } t key = .addr ra ∧
       rawGet { st with heap := st.heap.set ra (.refCell value') } ra (.str "value") = value')) := by
  constructor
  · intro sh st t key value receiver ha1 ha2 ha3
    simp [baseSet, ha1, ha2, ha3]
  · intro st t ra kind fields ext sk key inner value receiver ht hf hkk hra hv1 hv2
    have htne : t ≠ ra := by
      intro h
      rw [h, hra] at ht
      simp at ht
    have hraw0 : rawGet st t key = .addr ra := by
      simp [rawGet, ht, hkk, hf]
    have hnra : isReadonlyV st (.addr ra) = false := by simp [isReadonlyV, hra]
    have hrra : isRefV st (.addr ra) = true := by simp [isRefV, hra]
    have hstops : toRawV st (.addr ra) = .addr ra :=
      toRawF_stops _ _ _ (by simp [rawFlagVal, hra, truthy])
    have harr : isArrayE st t = false := by simp [isArrayE, ht]
    have hlt : ra < st.heap.length := heapAt_lt st ra _ hra
    have hwrite : ∀ w : Val, refInnerWrite st (.addr ra) w =
        { st with heap := st.heap.set ra (.refCell w) } := by
      intro w
      simp only [refInnerWrite, toRawV, hstops]
      rw [show toRawF (st.heap.length + 1) st (.addr ra) = .addr ra from hstops]
      simp [hra]
    have hback : ∀ w : Val, rawGet { st with heap := st.heap.set ra (.refCell w) } t key
        = .addr ra := by
      intro w
      have : ({ st with heap := st.heap.set ra (.refCell w) } : St).heap[t]?
          = some (.obj kind fields ext sk) := by
        simpa [List.getElem?_set_ne (by omega : ra ≠ t)] using ht
      simp [rawGet, heapAt, this, hkk, hf]
    have hinner : ∀ w : Val, rawGet { st with heap := st.heap.set ra (.refCell w) } ra
        (.str "value") = w := by
      intro w
      have : ({ st with heap := st.heap.set ra (.refCell w) } : St).heap[ra]?
          = some (.refCell w) := List.getElem?_set_eq_of_lt _ hlt
      simp [rawGet, heapAt, this, isRefKey]
    cases hr : (!isShallowV st value && !isReadonlyV st value) with
    | true =>
        simp only [baseSet, hraw0, hnra, Bool.false_and, Bool.false_eq_true, if_false,
          Bool.not_false, Bool.true_and, hr, if_true, hstops, harr, hrra, hv2,
          Bool.and_true, Bool.true_eq_false, Bool.and_self]
        refine ⟨?_, hback _, hinner _⟩
        simp [hwrite]
    | false =>
        simp only [baseSet, hraw0, hnra, Bool.false_and, Bool.false_eq_true, if_false,
          Bool.not_false, Bool.true_and, hr, if_false, hstops, harr, hrra, hv1,
          Bool.and_true, Bool.true_eq_false, Bool.and_self]
        refine ⟨?_, hback _, hinner _⟩
        simp [hwrite]

/-- Witness for C7: (a) at a readonly-wrapped box stored under `r`, a
plain write is rejected with the state untouched; (b) at a plain box
stored under `r`, the deep write lands in the box's inner slot, reports
success, and the field still points at the same box. -/
theorem c7_boxed_reference_writes_wit :
    (isReadonlyV roRefSt (rawGet roRefSt 0 (.str "r")) = true ∧
     isRefV roRefSt (rawGet roRefSt 0 (.str "r")) = true ∧
     isRefV roRefSt (Val.num (.fin 7)) = false ∧
     baseSet false roRefSt 0 (.str "r") (.num (.fin 7)) (.addr 3) = (false, roRefSt)) ∧
    (let value' := if !isShallowV refSt (Val.num (.fin 7)) && !isReadonlyV refSt (Val.num (.fin 7))
       then toRawV refSt (Val.num (.fin 7)) else Val.num (.fin 7)
     baseSet false refSt 0 (.str "r") (.num (.fin 7)) (.addr 2) =
       (true, { refSt with heap := refSt.heap.set 1 (.refCell value') }) ∧
     rawGet { refSt with heap := refSt.heap.set 1 (.refCell value') } 0 (.str "r") = .addr 1 ∧
     rawGet { refSt with heap := refSt.heap.set 1 (.refCell value') } 1 (.str "value") = value') :=
  ⟨⟨by decide, by decide, by decide,
    c7_boxed_reference_writes.1 false roRefSt 0 (.str "r") (.num (.fin 7)) (.addr 3)
      (by decide) (by decide) (by decide)⟩,
   c7_boxed_reference_writes.2 refSt 0 1 .plain [(.str "r", .addr 1)] true false (.str "r")
     (.num (.fin 5)) (.num (.fin 7)) (.addr 2)
     (by decide) (by decide) (by decide) (by decide) (by decide) (by decide)⟩

lemma createReactiveObject_activeReader (st : St) (v : Val) (ro sh : Bool) :
    (createReactiveObject st v ro sh).2.activeReader = st.activeReader := by
  cases v <;> simp only [createReactiveObject] <;> (repeat' split) <;> simp_all

lemma trkPres_refl (st : St) : TrkPres st st := ⟨rfl, rfl, rfl, fun _ => rfl⟩

lemma trkPres_trans {a b c : St} (h1 : TrkPres a b) (h2 : TrkPres b c) : TrkPres a c := by
  obtain ⟨s1, t1, r1, d1⟩ := h1
  obtain ⟨s2, t2, r2, d2⟩ := h2
  exact ⟨s2.trans s1, t2.trans t1, r2.trans r1,
    fun h => (d2 (s1.trans h)).trans (d1 h)⟩

lemma trkPres_track (st : St) (a : Nat) (op : TrackOp) (k : JSKey) :
    TrkPres st (track st a op k) := by
  refine ⟨rfl, rfl, rfl, fun h => ?_⟩
  simp [track, h]

lemma trkPres_trigger (st : St) (a : Nat) (op : TriggerOp) (k : JSKey) (nv : Val)
    (ov : Option Val) : TrkPres st (trigger st a op k nv ov) :=
  ⟨rfl, rfl, rfl, fun _ => rfl⟩

lemma trkPres_warnSt (st : St) : TrkPres st (warnSt st) := ⟨rfl, rfl, rfl, fun _ => rfl⟩

lemma trkPres_addHeap (st : St) (e : Entity) : TrkPres st (addHeap st e) :=
  ⟨rfl, rfl, rfl, fun _ => rfl⟩

lemma trkPres_rawSet (st : St) (a : Nat) (k : JSKey) (v : Val) :
    TrkPres st (rawSet st a k v).2 := by
  simp only [rawSet]
  (repeat' split) <;> exact ⟨rfl, rfl, rfl, fun _ => rfl⟩

lemma trkPres_rawDelete (st : St) (a : Nat) (k : JSKey) :
    TrkPres st (rawDelete st a k).2 := by
  simp only [rawDelete]
  (repeat' split) <;> exact ⟨rfl, rfl, rfl, fun _ => rfl⟩

lemma trkPres_refInnerWrite (st : St) (v nv : Val) : TrkPres st (refInnerWrite st v nv) := by
  simp only [refInnerWrite]
  (repeat' split) <;> exact ⟨rfl, rfl, rfl, fun _ => rfl⟩

lemma trkPres_createReactiveObject (st : St) (v : Val) (ro sh : Bool) :
    TrkPres st (createReactiveObject st v ro sh).2 :=
  ⟨createReactiveObject_shouldTrack st v ro sh, createReactiveObject_trackStack st v ro sh,
   createReactiveObject_activeReader st v ro sh, fun _ => createReactiveObject_deps st v ro sh⟩

lemma trkPres_reactiveF (st : St) (v : Val) : TrkPres st (reactiveF st v).2 := by
  simp only [reactiveF]
  split
  · exact trkPres_refl st
  · exact trkPres_createReactiveObject st v false false

lemma trkPres_readonlyF (st : St) (v : Val) : TrkPres st (readonlyF st v).2 :=
  trkPres_createReactiveObject st v true false

lemma trkPres_baseGet (ro sh : Bool) (st : St) (t : Nat) (key : JSKey) (r : Val) :
    TrkPres st (baseGet ro sh st t key r).2 := by
  by_cases h1 : (key == isReactiveKey) = true
  · simp only [baseGet, h1, if_true]
    exact trkPres_refl st
  have h1' : (key == isReactiveKey) = false := by simpa using h1
  by_cases h2 : (key == isReadonlyKey) = true
  · simp only [baseGet, h1', h2, Bool.false_eq_true, if_false, if_true]
    exact trkPres_refl st
  have h2' : (key == isReadonlyKey) = false := by simpa using h2
  by_cases h3 : (key == isShallowKey) = true
  · simp only [baseGet, h1', h2', h3, Bool.false_eq_true, if_false, if_true]
    exact trkPres_refl st
  have h3' : (key == isShallowKey) = false := by simpa using h3
  by_cases h4 : (key == rawKey && receiverMatches st ro sh t r) = true
  · simp only [baseGet, h1', h2', h3', h4, Bool.false_eq_true, if_false, if_true]
    exact trkPres_refl st
  have h4' : (key == rawKey && receiverMatches st ro sh t r) = false := by simpa using h4
  by_cases h5 : (!ro && isArrayE st t && (instrOfKey key).isSome) = true
  · simp only [baseGet, h1', h2', h3', h4', h5, Bool.false_eq_true, if_false, if_true]
    exact trkPres_refl st
  have h5' : (!ro && isArrayE st t && (instrOfKey key).isSome) = false := by simpa using h5
  by_cases h6 : skipTracking key = true
  · simp only [baseGet, h1', h2', h3', h4', h5', h6, Bool.false_eq_true, if_false, if_true]
    exact trkPres_refl st
  have h6' : skipTracking key = false := by simpa using h6
  simp only [baseGet, h1', h2', h3', h4', h5', h6', Bool.false_eq_true, if_false]
  split_ifs <;>
    first
      | exact trkPres_refl st
      | exact trkPres_track st t .get key
      | exact trkPres_trans (trkPres_track st t .get key) (trkPres_reactiveF _ _)
      | exact trkPres_trans (trkPres_track st t .get key) (trkPres_readonlyF _ _)
      | exact trkPres_reactiveF _ _
      | exact trkPres_readonlyF _ _

lemma trkPres_baseSet (sh : Bool) (st : St) (t : Nat) (key : JSKey) (v r : Val) :
    TrkPres st (baseSet sh st t key v r).2 := by
  simp only [baseSet]
  (repeat' split) <;>
    first
      | exact trkPres_refl st
      | exact trkPres_refInnerWrite st _ _
      | exact trkPres_rawSet st t key _
      | exact trkPres_trans (trkPres_rawSet st t key _) (trkPres_trigger _ t _ key _ _)

lemma trkPres_deletePropertyT (st : St) (t : Nat) (key : JSKey) :
    TrkPres st (deletePropertyT st t key).2 := by
  simp only [deletePropertyT]
  (repeat' split) <;>
    first
      | exact trkPres_rawDelete st t key
      | exact trkPres_trans (trkPres_rawDelete st t key) (trkPres_trigger _ t _ key _ _)

lemma trkPres_proxyGet (st : St) (p : Nat) (key : JSKey) :
    TrkPres st (proxyGet st p key).2 := by
  simp only [proxyGet]
  (repeat' split) <;> first | exact trkPres_refl st | exact trkPres_baseGet _ _ st _ key _

lemma trkPres_proxySet (st : St) (p : Nat) (key : JSKey) (v : Val) :
    TrkPres st (proxySet st p key v).2 := by
  simp only [proxySet]
  (repeat' split) <;>
    first
      | exact trkPres_refl st
      | exact trkPres_trans (trkPres_warnSt st) (trkPres_refl _)
      | exact trkPres_baseSet _ st _ key v _

lemma trkPres_proxyDelete (st : St) (p : Nat) (key : JSKey) :
    TrkPres st (proxyDelete st p key).2 := by
  simp only [proxyDelete]
  (repeat' split) <;>
    first
      | exact trkPres_refl st
      | exact trkPres_trans (trkPres_warnSt st) (trkPres_refl _)
      | exact trkPres_deletePropertyT st _ key

lemma trkPres_foldl {α : Type} (f : St → α → St) (l : List α) (st : St)
    (h : ∀ s a, TrkPres s (f s a)) : TrkPres st (l.foldl f st) := by
  induction l generalizing st with
  | nil => exact trkPres_refl st
  | cons a rest ih => exact trkPres_trans (h st a) (ih (f st a))

lemma trkPres_foldl_pair {α β : Type} (f : β × St → α → β × St) (l : List α) (init : β × St)
    (h : ∀ s a, TrkPres s.2 (f s a).2) : TrkPres init.2 (l.foldl f init).2 := by
  induction l generalizing init with
  | nil => exact trkPres_refl init.2
  | cons a rest ih => exact trkPres_trans (h init a) (ih (f init a))

lemma trkPres_setLenViaProxy (st : St) (p n : Nat) : TrkPres st (setLenViaProxy st p n) :=
  trkPres_proxySet st p lengthKey _

lemma trkPres_storeArgsFrom (st : St) (p l : Nat) (args : List Val) :
    TrkPres st (storeArgsFrom st p l args) :=
  trkPres_foldl _ _ _ (fun s a => trkPres_proxySet s p _ a.2)

lemma trkPres_shiftMove (st : St) (p l : Nat) : TrkPres st (shiftMove st p l) :=
  trkPres_foldl _ _ _
    (fun s k => trkPres_trans (trkPres_proxyGet s p _) (trkPres_proxySet _ p _ _))

lemma trkPres_unshiftMove (st : St) (p l n : Nat) : TrkPres st (unshiftMove st p l n) :=
  trkPres_foldl _ _ _
    (fun s k => trkPres_trans (trkPres_proxyGet s p _) (trkPres_proxySet _ p _ _))

lemma trkPres_spliceCollect (st : St) (p aStart aDC : Nat) :
    TrkPres st (spliceCollect st p aStart aDC).2 := by
  unfold spliceCollect
  exact trkPres_foldl_pair _ _ _
    (fun s i => trkPres_trans (trkPres_proxyGet s.2 p _) (trkPres_refl _))

lemma trkPres_spliceShrink (st : St) (p l aStart aDC n : Nat) :
    TrkPres st (spliceShrink st p l aStart aDC n) :=
  trkPres_trans
    (trkPres_foldl _ _ _
      (fun s k => trkPres_trans (trkPres_proxyGet s p _) (trkPres_proxySet _ p _ _)))
    (trkPres_foldl _ _ _ (fun s i => trkPres_proxyDelete s p _))

lemma trkPres_spliceGrow (st : St) (p l aStart aDC n : Nat) :
    TrkPres st (spliceGrow st p l aStart aDC n) :=
  trkPres_foldl _ _ _
    (fun s k => trkPres_trans (trkPres_proxyGet s p _) (trkPres_proxySet _ p _ _))

lemma trkPres_nativePush (st : St) (p : Nat) (args : List Val) :
    TrkPres st (nativePush st p args).2 :=
  trkPres_trans (trkPres_proxyGet st p lengthKey)
    (trkPres_trans (trkPres_storeArgsFrom _ p _ args) (trkPres_setLenViaProxy _ p _))

lemma trkPres_nativePop (st : St) (p : Nat) : TrkPres st (nativePop st p).2 := by
  simp only [nativePop]
  split
  · exact trkPres_trans (trkPres_proxyGet st p lengthKey) (trkPres_setLenViaProxy _ p _)
  · exact trkPres_trans (trkPres_proxyGet st p lengthKey)
      (trkPres_trans (trkPres_proxyGet _ p _)
        (trkPres_trans (trkPres_proxyDelete _ p _) (trkPres_setLenViaProxy _ p _)))

lemma trkPres_nativeShift (st : St) (p : Nat) : TrkPres st (nativeShift st p).2 := by
  simp only [nativeShift]
  split
  · exact trkPres_trans (trkPres_proxyGet st p lengthKey) (trkPres_setLenViaProxy _ p _)
  · exact trkPres_trans (trkPres_proxyGet st p lengthKey)
      (trkPres_trans (trkPres_proxyGet _ p _)
        (trkPres_trans (trkPres_shiftMove _ p _)
          (trkPres_trans (trkPres_proxyDelete _ p _) (trkPres_setLenViaProxy _ p _))))

lemma trkPres_nativeUnshift (st : St) (p : Nat) (args : List Val) :
    TrkPres st (nativeUnshift st p args).2 := by
  simp only [nativeUnshift]
  refine trkPres_trans (trkPres_proxyGet st p lengthKey)
    (trkPres_trans ?_ (trkPres_setLenViaProxy _ p _))
  split
  · exact trkPres_refl _
  · exact trkPres_trans (trkPres_unshiftMove _ p _ _) (trkPres_storeArgsFrom _ p 0 args)

lemma trkPres_nativeSplice (st : St) (p : Nat) (args : List Val) :
    TrkPres st (nativeSplice st p args).2 := by
  simp only [nativeSplice]
  refine trkPres_trans (trkPres_proxyGet st p lengthKey)
    (trkPres_trans
      (trkPres_spliceCollect _ p (spliceStart (toNatV (proxyGet st p lengthKey).1) args)
        (spliceDC (toNatV (proxyGet st p lengthKey).1)
          (spliceStart (toNatV (proxyGet st p lengthKey).1) args) args))
      (trkPres_trans ?_
        (trkPres_trans (trkPres_storeArgsFrom _ p _ _)
          (trkPres_trans (trkPres_setLenViaProxy _ p _) (trkPres_addHeap _ _)))))
  split
  · exact trkPres_spliceShrink _ p _ _ _ _
  · split
    · exact trkPres_spliceGrow _ p _ _ _ _
    · exact trkPres_refl _

lemma trkPres_nativeMutViaProxy (m : InstrMethod) (st : St) (p : Nat) (args : List Val) :
    TrkPres st (nativeMutViaProxy m st p args).2 := by
  cases m <;>
    first
      | exact trkPres_refl st
      | exact trkPres_nativePush st p args
      | exact trkPres_nativePop st p
      | exact trkPres_nativeShift st p
      | exact trkPres_nativeUnshift st p args
      | exact trkPres_nativeSplice st p args

lemma reactiveF_deps (st : St) (v : Val) : (reactiveF st v).2.deps = st.deps := by
  unfold reactiveF
  split
  · rfl
  · exact createReactiveObject_deps st v false false

lemma readonlyF_deps (st : St) (v : Val) : (readonlyF st v).2.deps = st.deps :=
  createReactiveObject_deps st v true false

/-- Claim C9: the instrumented `push`/`pop`/`shift`/`unshift`/`splice`
push a do-not-track state, run the native method (fetched from the raw
array, applied with the wrapper as receiver) and pop the prior tracking
state: the call registers no dependency at all (in particular none on
`length`), `shouldTrack` and the suppression stack come back unchanged,
and the method's own result is returned — while a direct `length` read
on the wrapper inside an active reader context still registers a
dependency on `(raw array, length)` as usual. -/
theorem c9_mutator_suppression (m : InstrMethod)
    (hm : m = .push ∨ m = .pop ∨ m = .shift ∨ m = .unshift ∨ m = .splice)
    (st : St) (selfP : Nat) (args : List Val) :
    (instrMutatorCall m st selfP args).2.deps = st.deps ∧
    (instrMutatorCall m st selfP args).2.shouldTrack = st.shouldTrack ∧
    (instrMutatorCall m st selfP args).2.trackStack = st.trackStack ∧
    (instrMutatorCall m st selfP args).1 =
      (nativeMutViaProxy m (pauseTracking st) selfP args).1 ∧
    (∀ (t : Nat) (sh c : Bool), st.shouldTrack = true → st.activeReader = true →
      heapAt st selfP = some (.proxyE t false sh c) →
      (proxyGet st selfP lengthKey).2.deps = st.deps ++ [(t, TrackOp.get, lengthKey)]) := by
  obtain ⟨hs, htk, har, hd⟩ := trkPres_nativeMutViaProxy m (pauseTracking st) selfP args
  have hdeps : (nativeMutViaProxy m (pauseTracking st) selfP args).2.deps = st.deps := hd rfl
  have hstk : (nativeMutViaProxy m (pauseTracking st) selfP args).2.trackStack =
      st.shouldTrack :: st.trackStack := htk
  have hreset : resetTracking (nativeMutViaProxy m (pauseTracking st) selfP args).2 =
      { (nativeMutViaProxy m (pauseTracking st) selfP args).2 with
        shouldTrack := st.shouldTrack, trackStack := st.trackStack } := by
    simp only [resetTracking, hstk]
  refine ⟨?_, ?_, ?_, rfl, ?_⟩
  · simp only [instrMutatorCall, hreset, hdeps]
  · simp only [instrMutatorCall, hreset]
  · simp only [instrMutatorCall, hreset]
  · intro t sh c hst hact hp
    have h5 : (!false && isArrayE st t && (instrOfKey lengthKey).isSome) = false := by
      simp [instrOfKey, lengthKey]
    simp only [proxyGet, hp]
    rw [baseGet_data_key false sh st t lengthKey (.addr selfP) (by decide) (by decide)
      (by decide) (by decide) h5 (by decide)]
    simp only [Bool.not_false, if_true]
    split_ifs <;>
      simp [track, hst, hact, reactiveF_deps, readonlyF_deps]

/-- Witness for C9 at a concrete push of 20 onto a wrapped array `[10]`:
no dependency is registered, the suppression state is restored, the
native result (new length) is returned, and a direct length read on the
wrapper still registers a dependency. -/
theorem c9_mutator_suppression_wit :
    (InstrMethod.push = InstrMethod.push ∨ InstrMethod.push = .pop ∨
     InstrMethod.push = .shift ∨ InstrMethod.push = .unshift ∨
     InstrMethod.push = .splice) ∧
    ((instrMutatorCall .push arrSt 1 [.num (.fin 20)]).2.deps = arrSt.deps ∧
     (instrMutatorCall .push arrSt 1 [.num (.fin 20)]).2.shouldTrack = arrSt.shouldTrack ∧
     (instrMutatorCall .push arrSt 1 [.num (.fin 20)]).2.trackStack = arrSt.trackStack ∧
     (instrMutatorCall .push arrSt 1 [.num (.fin 20)]).1 =
       (nativeMutViaProxy .push (pauseTracking arrSt) 1 [.num (.fin 20)]).1 ∧
     (∀ (t : Nat) (sh c : Bool), arrSt.shouldTrack = true → arrSt.activeReader = true →
       heapAt arrSt 1 = some (.proxyE t false sh c) →
       (proxyGet arrSt 1 lengthKey).2.deps = arrSt.deps ++ [(t, TrackOp.get, lengthKey)])) :=
  ⟨Or.inl rfl, c9_mutator_suppression .push (Or.inl rfl) arrSt 1 [.num (.fin 20)]⟩

/-- Claim C2: wrapping a plain uncached object mutably and then wrapping
that wrapper readonly yields a new, distinct readonly wrapper over the
same raw value (`toRaw` returns the original), while handing the
readonly wrapper back to the mutable factory returns it unchanged —
mutability is never granted over a readonly wrapper (final conjunct, for
every readonly value). -/
theorem c2_readonly_absorption (st : St) (x : Nat) (f : List (JSKey × Val))
    (hx : heapAt st x = some (.obj .plain f true false))
    (hraw : flookup f rawKey = none)
    (hro : flookup f isReadonlyKey = none)
    (hskip : flookup f skipKey = none)
    (hm1 : mapGet st false false x = none)
    (hm2 : alookup st.readonlyM st.heap.length = none) :
    (reactiveF st (.addr x)).1 = .addr st.heap.length ∧
    (readonlyF (reactiveF st (.addr x)).2 (.addr st.heap.length)).1
      = .addr (st.heap.length + 1) ∧
    Val.addr (st.heap.length + 1) ≠ Val.addr st.heap.length ∧
    toRawV (readonlyF (reactiveF st (.addr x)).2 (.addr st.heap.length)).2
      (.addr (st.heap.length + 1)) = .addr x ∧
    reactiveF (readonlyF (reactiveF st (.addr x)).2 (.addr st.heap.length)).2
        (.addr (st.heap.length + 1)) =
      (.addr (st.heap.length + 1),
       (readonlyF (reactiveF st (.addr x)).2 (.addr st.heap.length)).2) ∧
    (∀ (st' : St) (v : Val), isReadonlyV st' v = true → reactiveF st' v = (v, st')) := by
  have hxlen := heapAt_lt st x _ hx
  have hrawL : flookup f (JSKey.str "__v_raw") = none := hraw
  have hskipL : flookup f (JSKey.str "__v_skip") = none := hskip
  have hroL : flookup f (JSKey.str "__v_isReadonly") = none := hro
  have hro' : isReadonlyV st (.addr x) = false := by
    simp [isReadonlyV, hx, hroL, isReadonlyKey, truthy]
  have hobj : isObjectV st (.addr x) = true := by simp [isObjectV, hx]
  have hrg : rawGet st x rawKey = .undef := by
    simp [rawGet, hx, hrawL, rawKey, skipKey]
  have hrawv : truthy (rawFlagVal st (.addr x)) = false := by
    simp [rawFlagVal, hx, hrg, truthy]
  have hsg : rawGet st x skipKey = .undef := by
    simp [rawGet, hx, hskipL, skipKey]
  have htt : getTargetTypeE st (.addr x) = TargetType.common := by
    simp [getTargetTypeE, skipOf, hx, hsg, truthy, extensibleOf, rawTypeOf, targetTypeMap,
      objKindRawType]
  have hw : reactiveF st (.addr x) =
      (.addr st.heap.length,
       mapInsert (addHeap st (.proxyE x false false false)) false false x st.heap.length) := by
    simp [reactiveF, hro', createReactiveObject, hobj, hrawv, hm1, htt]
    rfl
  rw [hw]
  set stA := mapInsert (addHeap st (.proxyE x false false false)) false false x st.heap.length
    with hstA
  have haA : stA.heap = st.heap ++ [.proxyE x false false false] := by
    rw [hstA]
    cases st <;> simp [mapInsert, addHeap]
  have hA_x : heapAt stA x = some (.obj .plain f true false) := by
    unfold heapAt
    rw [haA, List.getElem?_append]
    rw [if_pos hxlen]
    exact hx
  have hA_n : heapAt stA st.heap.length = some (.proxyE x false false false) := by
    unfold heapAt
    rw [haA]
    simp
  have hA_len : stA.heap.length = st.heap.length + 1 := by rw [haA]; simp
  have hA_rom : stA.readonlyM = st.readonlyM := by
    rw [hstA]
    cases st <;> simp [mapInsert, addHeap]
  have hobjA : isObjectV stA (.addr st.heap.length) = true := by simp [isObjectV, hA_n]
  have hrawA : rawFlagVal stA (.addr st.heap.length) = .addr x := by simp [rawFlagVal, hA_n]
  have hreactA : reactiveFlagV stA (.addr st.heap.length) = true := by
    simp [reactiveFlagV, hA_n]
  have hmA : mapGet stA true false st.heap.length = none := by simp [mapGet, hA_rom, hm2]
  have hsgA : rawGet stA x skipKey = .undef := by simp [rawGet, hA_x, hskipL, skipKey]
  have httA : getTargetTypeE stA (.addr st.heap.length) = TargetType.common := by
    simp [getTargetTypeE, skipOf, hA_n, hA_x, hsgA, truthy, extensibleOf, rawTypeOf,
      targetTypeMap, objKindRawType]
  have hy : readonlyF stA (.addr st.heap.length) =
      (.addr (st.heap.length + 1),
       mapInsert (addHeap stA (.proxyE st.heap.length true false false)) true false
         st.heap.length (st.heap.length + 1)) := by
    simp [readonlyF, createReactiveObject, hobjA, hrawA, truthy, hreactA, hmA, httA, hA_len]
    rfl
  dsimp only
  rw [hy]
  dsimp only
  set stB := mapInsert (addHeap stA (.proxyE st.heap.length true false false)) true false
    st.heap.length (st.heap.length + 1) with hstB
  have hBheap : stB.heap = stA.heap ++ [.proxyE st.heap.length true false false] := by
    rw [hstB]
    cases stA <;> simp [mapInsert, addHeap]
  have hB_len : stB.heap.length = st.heap.length + 2 := by
    rw [hBheap]
    simp [hA_len]
  have hB_y : heapAt stB (st.heap.length + 1) = some (.proxyE st.heap.length true false false) := by
    unfold heapAt
    rw [hBheap]
    rw [show st.heap.length + 1 = stA.heap.length from hA_len.symm]
    simp
  have hB_n : heapAt stB st.heap.length = some (.proxyE x false false false) := by
    unfold heapAt
    rw [hBheap, List.getElem?_append]
    rw [if_pos (by omega : st.heap.length < stA.heap.length)]
    exact hA_n
  have hB_x : heapAt stB x = some (.obj .plain f true false) := by
    unfold heapAt
    rw [hBheap, List.getElem?_append]
    rw [if_pos (by omega : x < stA.heap.length)]
    exact hA_x
  refine ⟨rfl, rfl, by simp, ?_, ?_, ?_⟩
  · unfold toRawV
    rw [hB_len]
    show toRawF (st.heap.length + 2 + 1) stB (.addr (st.heap.length + 1)) = .addr x
    have r1 : rawFlagVal stB (.addr (st.heap.length + 1)) = .addr st.heap.length := by
      simp [rawFlagVal, hB_y]
    have r2 : rawFlagVal stB (.addr st.heap.length) = .addr x := by
      simp [rawFlagVal, hB_n]
    have r3 : truthy (rawFlagVal stB (.addr x)) = false := by
      simp [rawFlagVal, hB_x, rawGet, hrawL, rawKey, skipKey, truthy]
    rw [toRawF_succ, r1]
    simp only [truthy, if_true]
    rw [toRawF_succ, r2]
    simp only [truthy, if_true]
    exact toRawF_stops _ _ _ r3
  · have : isReadonlyV stB (.addr (st.heap.length + 1)) = true := by
      simp [isReadonlyV, hB_y]
    simp [reactiveF, this]
  · intro st' v h
    simp [reactiveF, h]

/-- Witness for C2 at a concrete plain object: `reactive` yields wrapper
1, `readonly` of it yields the distinct wrapper 2, whose raw is the
original object 0, and `reactive` of wrapper 2 returns it unchanged. -/
theorem c2_readonly_absorption_wit :
    heapAt plainSt 0 = some (.obj .plain [] true false) ∧
    mapGet plainSt false false 0 = none ∧
    ((reactiveF plainSt (.addr 0)).1 = .addr 1 ∧
     (readonlyF (reactiveF plainSt (.addr 0)).2 (.addr 1)).1 = .addr 2 ∧
     Val.addr 2 ≠ Val.addr 1 ∧
     toRawV (readonlyF (reactiveF plainSt (.addr 0)).2 (.addr 1)).2 (.addr 2) = .addr 0 ∧
     reactiveF (readonlyF (reactiveF plainSt (.addr 0)).2 (.addr 1)).2 (.addr 2) =
       (.addr 2, (readonlyF (reactiveF plainSt (.addr 0)).2 (.addr 1)).2) ∧
     (∀ (st' : St) (v : Val), isReadonlyV st' v = true → reactiveF st' v = (v, st'))) :=
  ⟨by decide, by decide,
   c2_readonly_absorption plainSt 0 [] (by decide) (by decide) (by decide) (by decide)
     (by decide) (by decide)⟩

lemma heapAt_warn (st : St) (a : Nat) : heapAt (warnSt st) a = heapAt st a := rfl

lemma isObjectV_addr_congr (st st' : St) (a : Nat)
    (h : heapAt st' a = heapAt st a) : isObjectV st' (.addr a) = isObjectV st (.addr a) := by
  unfold isObjectV
  dsimp only
  rw [h]

lemma rawGet_congr (st st' : St) (a : Nat) (h : heapAt st' a = heapAt st a) (k : JSKey) :
    rawGet st' a k = rawGet st a k := by
  unfold rawGet
  rw [h]

lemma rawFlagVal_addr_congr (st st' : St) (a : Nat)
    (h : heapAt st' a = heapAt st a) :
    rawFlagVal st' (.addr a) = rawFlagVal st (.addr a) := by
  unfold rawFlagVal
  dsimp only
  rw [h, rawGet_congr st st' a h]

lemma reactiveFlagV_addr_congr (st st' : St) (a : Nat)
    (h : heapAt st' a = heapAt st a) :
    reactiveFlagV st' (.addr a) = reactiveFlagV st (.addr a) := by
  unfold reactiveFlagV
  dsimp only
  rw [h]

lemma isReadonlyV_addr_congr (st st' : St) (a : Nat)
    (h : heapAt st' a = heapAt st a) :
    isReadonlyV st' (.addr a) = isReadonlyV st (.addr a) := by
  unfold isReadonlyV
  dsimp only
  rw [h]

lemma mapInsert_addHeap_heap (st : St) (e : Entity) (ro sh : Bool) (a p : Nat) :
    (mapInsert (addHeap st e) ro sh a p).heap = st.heap ++ [e] := by
  cases ro <;> cases sh <;> simp [mapInsert, addHeap]

lemma heapAt_mapInsert_addHeap_lt (st : St) (e : Entity) (ro sh : Bool) (a p b : Nat)
    (hb : b < st.heap.length) :
    heapAt (mapInsert (addHeap st e) ro sh a p) b = heapAt st b := by
  unfold heapAt
  rw [mapInsert_addHeap_heap, List.getElem?_append]
  rw [if_pos hb]

lemma heapAt_mapInsert_addHeap_self (st : St) (e : Entity) (ro sh : Bool) (a p : Nat) :
    heapAt (mapInsert (addHeap st e) ro sh a p) st.heap.length = some e := by
  unfold heapAt
  rw [mapInsert_addHeap_heap]
  simp

/-- A well-formed registry only holds wrappers of its own variant over
their own key. -/
lemma wf_mapGet (st : St) (hwf : wfRegistries st = true) (ro sh : Bool) (a p : Nat)
    (h : mapGet st ro sh a = some p) :
    ∃ c, heapAt st p = some (.proxyE a ro sh c) := by
  simp only [wfRegistries, Bool.and_eq_true, List.all_eq_true] at hwf
  obtain ⟨⟨⟨w1, w2⟩, w3⟩, w4⟩ := hwf
  have main : ∀ (l : List (Nat × Nat)), (∀ e ∈ l, wfEntry st ro sh e = true) →
      alookup l a = some p → ∃ c, heapAt st p = some (.proxyE a ro sh c) := by
    intro l hl hal
    simp only [alookup, Option.map_eq_some'] at hal
    obtain ⟨pr, hfind, hp2⟩ := hal
    have hmem := List.mem_of_find?_eq_some hfind
    have hpred := List.find?_some hfind
    have ha : pr.1 = a := by simpa using hpred
    have hw := hl pr hmem
    unfold wfEntry at hw
    split at hw
    next t ro' sh' c heq =>
      simp only [Bool.and_eq_true, beq_iff_eq] at hw
      obtain ⟨⟨ht, hro⟩, hsh⟩ := hw
      subst ht hro hsh hp2 ha
      exact ⟨c, heq⟩
    next => exact absurd hw (by simp)
  cases ro <;> cases sh
  · exact main st.reactiveM (fun e he => w1 e he) h
  · exact main st.shallowReactiveM (fun e he => w2 e he) h
  · exact main st.readonlyM (fun e he => w3 e he) h
  · exact main st.shallowReadonlyM (fun e he => w4 e he) h

/-- The heap cells that existed before a factory call are unchanged by it. -/
lemma createReactiveObject_heapAt_stable (st : St) (y : Val) (ro sh : Bool) (b : Nat)
    (e : Entity) (h : heapAt st b = some e) :
    heapAt (createReactiveObject st y ro sh).2 b = some e := by
  have hlt := heapAt_lt st b e h
  cases y <;> simp only [createReactiveObject] <;> (repeat' split) <;>
    first
      | exact h
      | exact (heapAt_mapInsert_addHeap_lt st _ ro sh _ _ b hlt).trans h

/-- The factory leaves the readonly flag of its argument unchanged. -/
lemma isReadonlyV_createReactiveObject (st : St) (x : Val) (ro sh : Bool) :
    isReadonlyV (createReactiveObject st x ro sh).2 x = isReadonlyV st x := by
  cases x with
  | addr a =>
      cases hh : heapAt st a with
      | some e =>
          have hs := createReactiveObject_heapAt_stable st (.addr a) ro sh a e hh
          exact isReadonlyV_addr_congr st _ a (hs.trans hh.symm)
      | none =>
          have hio : isObjectV st (.addr a) = false := by simp [isObjectV, hh]
          simp [createReactiveObject, hio, isReadonlyV, heapAt_warn, hh]
  | undef => rfl
  | null => rfl
  | bool b => rfl
  | num n => rfl
  | str s => rfl
  | sym wk i => rfl
  | instrFn m => rfl

/-- Factory stability: re-wrapping the factory's result, or the original
value, returns the same instance. -/
lemma createReactiveObject_stable (st : St) (x : Val) (ro sh : Bool)
    (hwf : wfRegistries st = true) :
    (createReactiveObject (createReactiveObject st x ro sh).2
        (createReactiveObject st x ro sh).1 ro sh).1 = (createReactiveObject st x ro sh).1 ∧
    (createReactiveObject (createReactiveObject st x ro sh).2 x ro sh).1 =
      (createReactiveObject st x ro sh).1 := by
  cases x with
  | addr a =>
      by_cases hio : isObjectV st (.addr a) = true
      · by_cases hcond : (truthy (rawFlagVal st (.addr a)) &&
            !(ro && reactiveFlagV st (.addr a))) = true
        · have h1 : createReactiveObject st (.addr a) ro sh = (.addr a, st) := by
            simp only [createReactiveObject, hio, Bool.not_true, Bool.false_eq_true, if_false,
              hcond, if_true]
          rw [h1]
          exact ⟨by rw [h1], by rw [h1]⟩
        · have hcond' : (truthy (rawFlagVal st (.addr a)) &&
              !(ro && reactiveFlagV st (.addr a))) = false := by simpa using hcond
          cases hm : mapGet st ro sh a with
          | some p =>
              obtain ⟨c, hp⟩ := wf_mapGet st hwf ro sh a p hm
              have hio_p : isObjectV st (.addr p) = true := by simp [isObjectV, hp]
              have hraw_p : rawFlagVal st (.addr p) = .addr a := by simp [rawFlagVal, hp]
              have hreact_p : reactiveFlagV st (.addr p) = !ro := by simp [reactiveFlagV, hp]
              have hcond_p : (truthy (rawFlagVal st (.addr p)) &&
                  !(ro && reactiveFlagV st (.addr p))) = true := by
                cases ro <;> simp [hraw_p, hreact_p, truthy]
              have h1 : createReactiveObject st (.addr a) ro sh = (.addr p, st) := by
                simp only [createReactiveObject, hio, Bool.not_true, Bool.false_eq_true,
                  if_false, hcond']
                rw [hm]
              have h2 : createReactiveObject st (.addr p) ro sh = (.addr p, st) := by
                simp only [createReactiveObject, hio_p, Bool.not_true, Bool.false_eq_true,
                  if_false, hcond_p, if_true]
              rw [h1]
              exact ⟨by rw [h2], by rw [h1]⟩
          | none =>
              by_cases htt : (getTargetTypeE st (.addr a) == TargetType.invalid) = true
              · have h1 : createReactiveObject st (.addr a) ro sh = (.addr a, st) := by
                  simp only [createReactiveObject, hio, Bool.not_true, Bool.false_eq_true,
                    if_false, hcond']
                  rw [hm]
                  simp only [htt, if_true]
                rw [h1]
                exact ⟨by rw [h1], by rw [h1]⟩
              · have htt' : (getTargetTypeE st (.addr a) == TargetType.invalid) = false := by
                  simpa using htt
                obtain ⟨e, he⟩ : ∃ e, heapAt st a = some e := by
                  revert hio
                  unfold isObjectV
                  dsimp only
                  cases heapAt st a
                  · simp
                  · exact fun _ => ⟨_, rfl⟩
                have hfirst : createReactiveObject st (.addr a) ro sh =
                    (.addr st.heap.length,
                     mapInsert (addHeap st (.proxyE a ro sh
                       (getTargetTypeE st (.addr a) == TargetType.collection))) ro sh a
                       st.heap.length) := by
                  simp only [createReactiveObject, hio, Bool.not_true, Bool.false_eq_true,
                    if_false, hcond']
                  rw [hm]
                  simp only [htt', Bool.false_eq_true, if_false]
                rw [hfirst]
                set stN := mapInsert (addHeap st (.proxyE a ro sh
                  (getTargetTypeE st (.addr a) == TargetType.collection))) ro sh a
                  st.heap.length with hstN
                have hN_n : heapAt stN st.heap.length = some (.proxyE a ro sh
                    (getTargetTypeE st (.addr a) == TargetType.collection)) := by
                  rw [hstN]
                  exact heapAt_mapInsert_addHeap_self st _ ro sh a st.heap.length
                have hN_a : heapAt stN a = heapAt st a := by
                  rw [hstN]
                  exact heapAt_mapInsert_addHeap_lt st _ ro sh _ _ a (heapAt_lt st a e he)
                constructor
                · have hio_n : isObjectV stN (.addr st.heap.length) = true := by
                    simp [isObjectV, hN_n]
                  have hraw_n : rawFlagVal stN (.addr st.heap.length) = .addr a := by
                    simp [rawFlagVal, hN_n]
                  have hreact_n : reactiveFlagV stN (.addr st.heap.length) = !ro := by
                    simp [reactiveFlagV, hN_n]
                  have hcond_n : (truthy (rawFlagVal stN (.addr st.heap.length)) &&
                      !(ro && reactiveFlagV stN (.addr st.heap.length))) = true := by
                    cases ro <;> simp [hraw_n, hreact_n, truthy]
                  simp only [createReactiveObject, hio_n, Bool.not_true, Bool.false_eq_true,
                    if_false, hcond_n, if_true]
                · have hio2 : isObjectV stN (.addr a) = true :=
                    (isObjectV_addr_congr st stN a hN_a).trans hio
                  have hcond2 : (truthy (rawFlagVal stN (.addr a)) &&
                      !(ro && reactiveFlagV stN (.addr a))) = false := by
                    rw [rawFlagVal_addr_congr st stN a hN_a,
                      reactiveFlagV_addr_congr st stN a hN_a]
                    exact hcond'
                  have hm2 : mapGet stN ro sh a = some st.heap.length := by
                    rw [hstN]
                    exact mapGet_mapInsert_self (addHeap st _) ro sh a st.heap.length
                  simp only [createReactiveObject, hio2, Bool.not_true, Bool.false_eq_true,
                    if_false, hcond2]
                  rw [hm2]
      · have hio' : isObjectV st (.addr a) = false := by simpa using hio
        have hio2 : isObjectV (warnSt st) (.addr a) = false := by
          rw [isObjectV_addr_congr st (warnSt st) a (heapAt_warn st a)]
          exact hio'
        have h1 : createReactiveObject st (.addr a) ro sh = (.addr a, warnSt st) := by
          simp only [createReactiveObject, hio', Bool.not_false, if_true]
        have h2 : createReactiveObject (warnSt st) (.addr a) ro sh =
            (.addr a, warnSt (warnSt st)) := by
          simp only [createReactiveObject, hio2, Bool.not_false, if_true]
        rw [h1]
        exact ⟨by rw [h2], by rw [h2]⟩
  | undef => simp [createReactiveObject]
  | null => simp [createReactiveObject]
  | bool b => simp [createReactiveObject]
  | num n => simp [createReactiveObject]
  | str s => simp [createReactiveObject]
  | sym wk i => simp [createReactiveObject]
  | instrFn m => simp [createReactiveObject]

/-- Claim C1: for every value and every variant, wrapping the result of
a wrap again returns the same instance, and two wrap requests for the
same value at the same variant return the identical instance — given the
registry invariant the factory maintains (every registry entry is the
wrapper of its key at the registry's variant). -/
theorem c1_wrap_idempotent (ro sh : Bool) (st : St) (x : Val)
    (hwf : wfRegistries st = true) :
    (wrapV ro sh (wrapV ro sh st x).2 (wrapV ro sh st x).1).1 = (wrapV ro sh st x).1 ∧
    (wrapV ro sh (wrapV ro sh st x).2 x).1 = (wrapV ro sh st x).1 := by
  cases ro with
  | true =>
      cases sh with
      | false =>
          simpa [wrapV, readonlyF] using createReactiveObject_stable st x true false hwf
      | true =>
          simpa [wrapV, shallowReadonlyF] using createReactiveObject_stable st x true true hwf
  | false =>
      cases sh with
      | true =>
          simpa [wrapV, shallowReactiveF] using createReactiveObject_stable st x false true hwf
      | false =>
          by_cases hr : isReadonlyV st x = true
          · simp [wrapV, reactiveF, hr]
          · have hr' : isReadonlyV st x = false := by simpa using hr
            have hr2 : isReadonlyV (createReactiveObject st x false false).2 x = false := by
              rw [isReadonlyV_createReactiveObject]
              exact hr'
            have hstab := createReactiveObject_stable st x false false hwf
            constructor
            · by_cases hrr : isReadonlyV (createReactiveObject st x false false).2
                  (createReactiveObject st x false false).1 = true
              · simp [wrapV, reactiveF, hr', hrr]
              · have hrr' : isReadonlyV (createReactiveObject st x false false).2
                    (createReactiveObject st x false false).1 = false := by simpa using hrr
                simp [wrapV, reactiveF, hr', hrr', hstab.1]
            · simp [wrapV, reactiveF, hr', hr2, hstab.2]

/-- Witness for C1 at a concrete plain object under the mutable deep
variant, starting from empty (trivially well-formed) registries. -/
theorem c1_wrap_idempotent_wit :
    wfRegistries plainSt = true ∧
    ((wrapV false false (wrapV false false plainSt (.addr 0)).2
        (wrapV false false plainSt (.addr 0)).1).1 = (wrapV false false plainSt (.addr 0)).1 ∧
     (wrapV false false (wrapV false false plainSt (.addr 0)).2 (.addr 0)).1 =
       (wrapV false false plainSt (.addr 0)).1) :=
  ⟨by decide, c1_wrap_idempotent false false plainSt (.addr 0) (by decide)⟩

end VueReactivity
